import Mathlib

/-!
# Mesen2: PC Engine CD-ROM register bridge and save-state manager

A shallow embedding of `Core/PCE/PceCdRom.cpp` and of the slot and header logic of
`Core/Shared/SaveStateManager.cpp`.

Conventions of the embedding.

* Bytes (`uint8_t`) are natural numbers.  The only arithmetic the controller performs on
  them is bitwise and / or with byte operands, which never leaves the byte range, so the
  narrowing stores are the identity; the complement `~(uint8_t)x` under a byte mask is
  written `0xFF ^^^ x`.
* The collaborators of the controller (SCSI bus, ADPCM unit, CD audio player, fader,
  settings) are not part of the translated sources.  Their combined state is an arbitrary
  type `W` and their operations are the fields of `Collaborators W`; every theorem holds
  for every choice of them.  The constructor hands `this` to the bus, the ADPCM unit and
  the audio player, which report interrupt conditions through `SetIrqSource` and
  `ClearIrqSource`: an operation that may change a collaborator therefore also yields the
  calls it makes back into the controller, and these are served as part of that operation.
* Every call that leaves the controller is appended to a log, so that statements about
  which calls are issued, how often and in which order, can be made.
-/

/-- Modelled from the spec: the named control lines of the signal bus (the enumeration
`ScsiSignal` is declared outside the translated sources); these are the six lines the
register bridge names. -/
inductive ScsiSignal where
  | Sel
  | Ack
  | Rst
  | Req
  | Io
  | Cd
  deriving DecidableEq, Repr

/-- Modelled from the spec: an interrupt source identifier (the enumeration
`PceCdRomIrqSource` is declared outside the translated sources).  Each identifier names one
specific bit of the 8-bit interrupt masks. -/
structure PceCdRomIrqSource where
  bit : Fin 8
  deriving DecidableEq, Repr

/-- The cast `(uint8_t)src` of an interrupt source. -/
def PceCdRomIrqSource.toUInt8 (src : PceCdRomIrqSource) : Nat :=
  2 ^ src.bit.val

/-- Modelled from the spec: the configured unit type (the enumeration `PceCdRomType` is
declared outside the translated sources).  `CdRom` is the base unit, the only value the
register bridge names; the others are the enhanced units. -/
inductive PceCdRomType where
  | CdRom
  | SuperCdRom
  | Arcade
  deriving DecidableEq, Repr

/-- The four fields of `_state`. -/
structure ControllerState where
  ActiveIrqs : Nat
  EnabledIrqs : Nat
  BramLocked : Bool
  ReadRightChannel : Bool
  deriving DecidableEq, Repr

/-- A call issued by the controller to one of its collaborators. -/
inductive Call where
  | SetSignalValue (sig : ScsiSignal) (val : Bool)
  | UpdateState
  | SetDataPort (value : Nat)
  | SetAckWithAutoClear
  | GetStatus
  | GetDataPort
  | CheckSignal (sig : ScsiSignal)
  | MemSetIrqSource
  | MemClearIrqSource
  | AdpcmWrite (addr : Nat) (value : Nat)
  | AdpcmRead (addr : Nat)
  | FaderWrite (value : Nat)
  | GetLeftSample
  | GetRightSample
  | GetPcEngineConfig
  | LogDebug (addr : Nat)
  deriving DecidableEq, Repr

/-- A call a delegate makes back into the controller while it serves a call: the
constructor hands `this` to the bus, the ADPCM unit and the audio player, and
`SetIrqSource` / `ClearIrqSource` are the entry points they report through. -/
inductive IrqCall where
  | SetIrqSource (src : PceCdRomIrqSource)
  | ClearIrqSource (src : PceCdRomIrqSource)
  deriving DecidableEq, Repr

/-- The source a call back names. -/
def IrqCall.src : IrqCall → PceCdRomIrqSource
  | IrqCall.SetIrqSource s => s
  | IrqCall.ClearIrqSource s => s

/-- The operations of the collaborators, over their combined state `W`.  An operation
that may change a collaborator returns the new collaborator state together with the calls
it made back into the controller, in order; the getters return a value only. -/
structure Collaborators (W : Type) where
  SetSignalValue : W → ScsiSignal → Bool → W × List IrqCall
  UpdateState : W → W × List IrqCall
  SetDataPort : W → Nat → W × List IrqCall
  SetAckWithAutoClear : W → W × List IrqCall
  GetStatus : W → Nat
  GetDataPort : W → Nat
  CheckSignal : W → ScsiSignal → Bool
  AdpcmWrite : W → Nat → Nat → W × List IrqCall
  AdpcmRead : W → Nat → Nat × W × List IrqCall
  FaderWrite : W → Nat → W × List IrqCall
  GetLeftSample : W → Int
  GetRightSample : W → Int
  CdRomType : W → PceCdRomType

/-- The controller together with what it drives: its own `_state`, the downstream `Irq2`
line held by the memory manager, the collaborators, the log of the calls an operation
issues itself, the calls received back from delegates, and the log of the calls issued
while serving those. -/
structure PceCdRom (W : Type) where
  state : ControllerState
  irq2 : Bool
  dev : W
  log : List Call
  callbacks : List IrqCall
  callbackLog : List Call

namespace PceCdRom

variable {W : Type}

/-- Record one issued call. -/
def emit (m : PceCdRom W) (c : Call) : PceCdRom W :=
  { m with log := m.log ++ [c] }

/-- The call `_console->GetMemoryManager()->SetIrqSource(PceIrqSource::Irq2)`. -/
def memSetIrqSource (m : PceCdRom W) : PceCdRom W :=
  { m with irq2 := true, log := m.log ++ [Call.MemSetIrqSource] }

/-- The call `_console->GetMemoryManager()->ClearIrqSource(PceIrqSource::Irq2)`. -/
def memClearIrqSource (m : PceCdRom W) : PceCdRom W :=
  { m with irq2 := false, log := m.log ++ [Call.MemClearIrqSource] }

/-- The method `PceCdRom::UpdateIrqState`. -/
def UpdateIrqState (m : PceCdRom W) : PceCdRom W :=
  if (m.state.EnabledIrqs &&& m.state.ActiveIrqs) ≠ 0 then memSetIrqSource m
  else memClearIrqSource m

/-- The method `PceCdRom::SetIrqSource`. -/
def SetIrqSource (m : PceCdRom W) (src : PceCdRomIrqSource) : PceCdRom W :=
  if (m.state.ActiveIrqs &&& src.toUInt8) = 0 then
    UpdateIrqState
      { m with state := { m.state with ActiveIrqs := m.state.ActiveIrqs ||| src.toUInt8 } }
  else m

/-- The method `PceCdRom::ClearIrqSource`. -/
def ClearIrqSource (m : PceCdRom W) (src : PceCdRomIrqSource) : PceCdRom W :=
  if (m.state.ActiveIrqs &&& src.toUInt8) ≠ 0 then
    UpdateIrqState
      { m with state :=
          { m.state with ActiveIrqs := m.state.ActiveIrqs &&& (0xFF ^^^ src.toUInt8) } }
  else m

/-- Serve one call a delegate makes back into the controller. -/
def applyIrqCall (m : PceCdRom W) : IrqCall → PceCdRom W
  | IrqCall.SetIrqSource src => SetIrqSource m src
  | IrqCall.ClearIrqSource src => ClearIrqSource m src

/-- Serve the calls a delegate made back into the controller during one of its operations,
in order.  They are recorded in `callbacks`, and what `SetIrqSource` / `ClearIrqSource`
issue while serving them goes to `callbackLog`, so that `log` holds the calls the running
operation issues itself. -/
def reenter (m : PceCdRom W) (calls : List IrqCall) : PceCdRom W :=
  { calls.foldl applyIrqCall { m with log := m.callbackLog } with
    log := m.log
    callbackLog := (calls.foldl applyIrqCall { m with log := m.callbackLog }).log
    callbacks := m.callbacks ++ calls }

/-- The call `_scsi.SetSignalValue(sig, val)`. -/
def scsiSetSignalValue (P : Collaborators W) (m : PceCdRom W) (sig : ScsiSignal)
    (val : Bool) : PceCdRom W :=
  reenter
    { m with dev := (P.SetSignalValue m.dev sig val).1,
             log := m.log ++ [Call.SetSignalValue sig val] }
    (P.SetSignalValue m.dev sig val).2

/-- The call `_scsi.UpdateState()`. -/
def scsiUpdateState (P : Collaborators W) (m : PceCdRom W) : PceCdRom W :=
  reenter { m with dev := (P.UpdateState m.dev).1, log := m.log ++ [Call.UpdateState] }
    (P.UpdateState m.dev).2

/-- The call `_scsi.SetDataPort(value)`. -/
def scsiSetDataPort (P : Collaborators W) (m : PceCdRom W) (value : Nat) : PceCdRom W :=
  reenter
    { m with dev := (P.SetDataPort m.dev value).1, log := m.log ++ [Call.SetDataPort value] }
    (P.SetDataPort m.dev value).2

/-- The call `_scsi.SetAckWithAutoClear()`. -/
def scsiSetAckWithAutoClear (P : Collaborators W) (m : PceCdRom W) : PceCdRom W :=
  reenter
    { m with dev := (P.SetAckWithAutoClear m.dev).1,
             log := m.log ++ [Call.SetAckWithAutoClear] }
    (P.SetAckWithAutoClear m.dev).2

/-- The call `_adpcm.Write(addr, value)`. -/
def adpcmWrite (P : Collaborators W) (m : PceCdRom W) (addr value : Nat) : PceCdRom W :=
  reenter
    { m with dev := (P.AdpcmWrite m.dev addr value).1,
             log := m.log ++ [Call.AdpcmWrite addr value] }
    (P.AdpcmWrite m.dev addr value).2

/-- The call `_adpcm.Read(addr)`: the byte returned and the controller afterwards. -/
def adpcmRead (P : Collaborators W) (m : PceCdRom W) (addr : Nat) : Nat × PceCdRom W :=
  ((P.AdpcmRead m.dev addr).1,
    reenter
      { m with dev := (P.AdpcmRead m.dev addr).2.1, log := m.log ++ [Call.AdpcmRead addr] }
      (P.AdpcmRead m.dev addr).2.2)

/-- The call `_audioFader.Write(value)`. -/
def faderWrite (P : Collaborators W) (m : PceCdRom W) (value : Nat) : PceCdRom W :=
  reenter
    { m with dev := (P.FaderWrite m.dev value).1, log := m.log ++ [Call.FaderWrite value] }
    (P.FaderWrite m.dev value).2

/-- The method `PceCdRom::Write`. -/
def Write (P : Collaborators W) (m : PceCdRom W) (addr value : Nat) : PceCdRom W :=
  let off := addr &&& 0x3FF
  if off = 0x00 then
    scsiUpdateState P (scsiSetSignalValue P
      (scsiUpdateState P (scsiSetSignalValue P m ScsiSignal.Sel true)) ScsiSignal.Sel false)
  else if off = 0x01 then
    scsiUpdateState P (scsiSetDataPort P m value)
  else if off = 0x02 then
    let m1 := scsiUpdateState P
      (scsiSetSignalValue P m ScsiSignal.Ack (decide ((value &&& 0x80) ≠ 0)))
    UpdateIrqState { m1 with state := { m1.state with EnabledIrqs := value &&& 0x7C } }
  else if off = 0x03 then m
  else if off = 0x04 then
    let reset : Bool := decide ((value &&& 0x02) ≠ 0)
    let m1 := scsiUpdateState P (scsiSetSignalValue P m ScsiSignal.Rst reset)
    if reset then
      UpdateIrqState
        { m1 with state := { m1.state with EnabledIrqs := m1.state.EnabledIrqs &&& 0x8F } }
    else m1
  else if off = 0x05 ∨ off = 0x06 then m
  else if off = 0x07 then
    if (value &&& 0x80) ≠ 0 then { m with state := { m.state with BramLocked := false } }
    else m
  else if 0x08 ≤ off ∧ off ≤ 0x0E then adpcmWrite P m addr value
  else if off = 0x0F then faderWrite P m value
  else m

/-- The narrowing cast `(uint8_t)x` of a signed value (two's complement). -/
def u8OfInt (x : Int) : Nat :=
  (x % 256).toNat

/-- The table `superCdRomSignature`. -/
def superCdRomSignature : List Nat :=
  [0x00, 0xAA, 0x55, 0x03]

/-- The sample selected by the flip-flop: `ReadRightChannel ? GetRightSample() :
GetLeftSample()`, with the call it issues. -/
def selectedSample (P : Collaborators W) (m : PceCdRom W) : Int × PceCdRom W :=
  if m.state.ReadRightChannel then (P.GetRightSample m.dev, emit m Call.GetRightSample)
  else (P.GetLeftSample m.dev, emit m Call.GetLeftSample)

/-- The method `PceCdRom::Read`: the byte returned and the controller afterwards. -/
def Read (P : Collaborators W) (m : PceCdRom W) (addr : Nat) : Nat × PceCdRom W :=
  let off := addr &&& 0x3FF
  if off = 0x00 then (P.GetStatus m.dev, emit m Call.GetStatus)
  else if off = 0x01 then (P.GetDataPort m.dev, emit m Call.GetDataPort)
  else if off = 0x02 then
    (m.state.EnabledIrqs ||| (if P.CheckSignal m.dev ScsiSignal.Ack then 0x80 else 0),
      emit m (Call.CheckSignal ScsiSignal.Ack))
  else if off = 0x03 then
    let st : ControllerState :=
      { m.state with BramLocked := true, ReadRightChannel := !m.state.ReadRightChannel }
    (st.ActiveIrqs ||| (if st.ReadRightChannel then 0 else 0x02), { m with state := st })
  else if off = 0x04 then
    ((if P.CheckSignal m.dev ScsiSignal.Rst then 0x02 else 0),
      emit m (Call.CheckSignal ScsiSignal.Rst))
  else if off = 0x05 then
    (u8OfInt (selectedSample P m).1, (selectedSample P m).2)
  else if off = 0x06 then
    (u8OfInt ((selectedSample P m).1 >>> (8 : Nat)), (selectedSample P m).2)
  else if off = 0x07 then ((if m.state.BramLocked then 0 else 0x80), m)
  else if off = 0x08 then
    let val := P.GetDataPort m.dev
    let m1 := emit m Call.GetDataPort
    let m2 := emit m1 (Call.CheckSignal ScsiSignal.Req)
    if P.CheckSignal m.dev ScsiSignal.Req then
      let m3 := emit m2 (Call.CheckSignal ScsiSignal.Io)
      if P.CheckSignal m.dev ScsiSignal.Io then
        let m4 := emit m3 (Call.CheckSignal ScsiSignal.Cd)
        if !P.CheckSignal m.dev ScsiSignal.Cd then
          (val, scsiUpdateState P (scsiSetAckWithAutoClear P m4))
        else (val, m4)
      else (val, m3)
    else (val, m2)
  else if 0x09 ≤ off ∧ off ≤ 0x0E then adpcmRead P m addr
  else if 0xC0 ≤ off ∧ off ≤ 0xC3 then
    if P.CdRomType m.dev = PceCdRomType.CdRom then (0xFF, emit m Call.GetPcEngineConfig)
    else (superCdRomSignature.getD (addr &&& 0x03) 0, emit m Call.GetPcEngineConfig)
  else (0xFF, emit m (Call.LogDebug addr))

end PceCdRom

/-! ## Sequences of operations on the controller -/

/-- One externally triggered operation on the controller. -/
inductive Op where
  | Write (addr : Nat) (value : Nat)
  | Read (addr : Nat)
  | SetIrqSource (src : PceCdRomIrqSource)
  | ClearIrqSource (src : PceCdRomIrqSource)
  deriving DecidableEq, Repr

namespace PceCdRom

variable {W : Type}

/-- Perform one operation (the byte returned by a read is dropped). -/
def step (P : Collaborators W) (m : PceCdRom W) : Op → PceCdRom W
  | Op.Write addr value => Write P m addr value
  | Op.Read addr => (Read P m addr).2
  | Op.SetIrqSource src => SetIrqSource m src
  | Op.ClearIrqSource src => ClearIrqSource m src

/-- Perform a sequence of operations, first to last. -/
def run (P : Collaborators W) (m : PceCdRom W) (ops : List Op) : PceCdRom W :=
  ops.foldl (step P) m

/-- Modelled from the spec: the value of `_state` at power-on (its initialiser is declared
outside the translated sources; the constructor body assigns no field): all masks zero,
flip-flop false, BRAM locked. -/
def powerOnState : ControllerState :=
  { ActiveIrqs := 0, EnabledIrqs := 0, BramLocked := true, ReadRightChannel := false }

/-- Modelled from the spec: a freshly constructed controller: power-on `_state`, the
downstream line deasserted, nothing logged. -/
def powerOn (dev : W) : PceCdRom W :=
  { state := powerOnState, irq2 := false, dev := dev, log := [], callbacks := [],
    callbackLog := [] }

/-- The number of interrupt-line recomputations recorded in a log: each run of
`UpdateIrqState` issues exactly one of the two memory-manager calls, and nothing else
issues them. -/
def irqUpdates (log : List Call) : Nat :=
  (log.filter (fun c => decide (c = Call.MemSetIrqSource ∨ c = Call.MemClearIrqSource))).length

/-- The calls issued between two moments of the controller: what the log gained. -/
def issued (before after : PceCdRom W) : List Call :=
  after.log.drop before.log.length

/-- The calls received back from delegates between two moments of the controller. -/
def received (before after : PceCdRom W) : List IrqCall :=
  after.callbacks.drop before.callbacks.length

/-- Every call back names a source admitted by `ok`. -/
def callsWithin (ok : PceCdRomIrqSource → Prop) (calls : List IrqCall) : Prop :=
  ∀ c ∈ calls, ok c.src

/-- The collaborators report only sources admitted by `ok`. -/
def reportsOnly (P : Collaborators W) (ok : PceCdRomIrqSource → Prop) : Prop :=
  (∀ w sig val, callsWithin ok (P.SetSignalValue w sig val).2)
    ∧ (∀ w, callsWithin ok (P.UpdateState w).2)
    ∧ (∀ w value, callsWithin ok (P.SetDataPort w value).2)
    ∧ (∀ w, callsWithin ok (P.SetAckWithAutoClear w).2)
    ∧ (∀ w addr value, callsWithin ok (P.AdpcmWrite w addr value).2)
    ∧ (∀ w addr, callsWithin ok (P.AdpcmRead w addr).2.2)
    ∧ (∀ w value, callsWithin ok (P.FaderWrite w value).2)

/-- A property of the controller that looks at `_state` and the downstream line only and
that the two interrupt entry points keep, for the sources admitted by `ok`. -/
def StableUnder (ok : PceCdRomIrqSource → Prop) (I : PceCdRom W → Prop) : Prop :=
  (∀ m src, ok src → I m → I (SetIrqSource m src))
    ∧ (∀ m src, ok src → I m → I (ClearIrqSource m src))
    ∧ (∀ m n : PceCdRom W, m.state = n.state → m.irq2 = n.irq2 → I m → I n)

/-- The operation names only a source admitted by `ok`. -/
def opWithin (ok : PceCdRomIrqSource → Prop) : Op → Prop
  | Op.SetIrqSource src => ok src
  | Op.ClearIrqSource src => ok src
  | _ => True

/-- What one call back leaves in ActiveIrqs: the assignments of `SetIrqSource` and
`ClearIrqSource`, under their guards. -/
def activeAfter (active : Nat) : IrqCall → Nat
  | IrqCall.SetIrqSource src =>
    if (active &&& src.toUInt8) = 0 then active ||| src.toUInt8 else active
  | IrqCall.ClearIrqSource src =>
    if (active &&& src.toUInt8) ≠ 0 then active &&& (0xFF ^^^ src.toUInt8) else active

/-- Since the moment `start`, the controller `m` has received some calls back and its
ActiveIrqs is what they leave, served in order, of the ActiveIrqs of `start`. -/
def tracks (start m : PceCdRom W) : Prop :=
  ∃ calls : List IrqCall, m.callbacks = start.callbacks ++ calls
    ∧ m.state.ActiveIrqs = calls.foldl activeAfter start.state.ActiveIrqs

/-- The downstream line agrees with the two masks. -/
def lineAgrees (m : PceCdRom W) : Prop :=
  m.irq2 = true ↔ (m.state.EnabledIrqs &&& m.state.ActiveIrqs) ≠ 0

/-- Only the writable bits of `EnabledIrqs` can be set. -/
def enabledWithinMask (m : PceCdRom W) : Prop :=
  m.state.EnabledIrqs &&& 0x7C = m.state.EnabledIrqs

/-- A call that changes a signal or the data port of the bus. -/
def isBusChange : Call → Bool
  | Call.SetSignalValue _ _ => true
  | Call.SetDataPort _ => true
  | Call.SetAckWithAutoClear => true
  | _ => false

/-- Every signal or data-port change in the trace is immediately followed by
`UpdateState`. -/
def updatedAfterEachChange : List Call → Bool
  | [] => true
  | c :: rest =>
    (if isBusChange c then decide (rest.head? = some Call.UpdateState) else true)
      && updatedAfterEachChange rest

end PceCdRom

/-! ## A concrete set of collaborators, for evaluating the controller on examples -/

/-- The state of the example collaborators: the bus lines and data port, the two audio
samples and the configured unit. -/
structure ToyWorld where
  lines : ScsiSignal → Bool
  port : Nat
  left : Int
  right : Int
  unit : PceCdRomType

/-- Example collaborators: a bus that stores its lines and data port and whose update
changes nothing, an ADPCM unit that answers with the high byte of the address it is
handed, and a fader that ignores writes.  None of them calls back into the controller. -/
def toy : Collaborators ToyWorld where
  SetSignalValue w sig val :=
    ({ w with lines := fun s => if s = sig then val else w.lines s }, [])
  UpdateState w := (w, [])
  SetDataPort w value := ({ w with port := value }, [])
  SetAckWithAutoClear w :=
    ({ w with lines := fun s => if s = ScsiSignal.Ack then true else w.lines s }, [])
  GetStatus _ := 0
  GetDataPort w := w.port
  CheckSignal w sig := w.lines sig
  AdpcmWrite w _ _ := (w, [])
  AdpcmRead w addr := ((addr / 256) % 256, w, [])
  FaderWrite w _ := (w, [])
  GetLeftSample w := w.left
  GetRightSample w := w.right
  CdRomType w := w.unit

/-- Example collaborators whose bus update releases the acknowledge line. -/
def toyDropAck : Collaborators ToyWorld :=
  { toy with
    UpdateState := fun w =>
      ({ w with lines := fun s => if s = ScsiSignal.Ack then false else w.lines s }, []) }

/-- Example collaborators whose bus update, while the reset line is asserted, reports the
two data-transfer conditions (bits 5 and 6) as gone. -/
def toyReset : Collaborators ToyWorld :=
  { toy with
    UpdateState := fun w =>
      (w, if w.lines ScsiSignal.Rst then
            [IrqCall.ClearIrqSource { bit := 5 }, IrqCall.ClearIrqSource { bit := 6 }]
          else []) }

/-- An example collaborator state: all lines low, samples 0x1234 and -2. -/
def toyWorld : ToyWorld :=
  { lines := fun _ => false, port := 0x5A, left := 0x1234, right := -2,
    unit := PceCdRomType.SuperCdRom }

/-- An example controller: the given masks over the example collaborators. -/
def toyMachine (active enabled : Nat) : PceCdRom ToyWorld :=
  { state := { ActiveIrqs := active, EnabledIrqs := enabled, BramLocked := true,
               ReadRightChannel := false },
    irq2 := decide ((enabled &&& active) ≠ 0), dev := toyWorld, log := [], callbacks := [],
    callbackLog := [] }

/-! ## Serialization -/

/-- One streamed value. -/
inductive SValue where
  | u8 (n : Nat)
  | bool (b : Bool)
  | nested
  deriving DecidableEq, Repr

/-- Modelled from the spec: the serializer behind `SV` (declared outside the
translated sources): one pass over the fields in a fixed order, which either captures each
visited value into the block or restores it from the block.  `visited` records the order of
the visits. -/
structure Serializer where
  saving : Bool
  block : List SValue
  visited : List String
  deriving DecidableEq, Repr

namespace Serializer

/-- Stream one byte field: `SV(x)` for a `uint8_t`. -/
def streamU8 (s : Serializer) (name : String) (x : Nat) : Nat × Serializer :=
  if s.saving then
    (x, { s with block := s.block ++ [SValue.u8 x], visited := s.visited ++ [name] })
  else
    match s.block with
    | SValue.u8 v :: rest => (v, { s with block := rest, visited := s.visited ++ [name] })
    | _ => (x, { s with visited := s.visited ++ [name] })

/-- Stream one boolean field: `SV(x)` for a `bool`. -/
def streamBool (s : Serializer) (name : String) (x : Bool) : Bool × Serializer :=
  if s.saving then
    (x, { s with block := s.block ++ [SValue.bool x], visited := s.visited ++ [name] })
  else
    match s.block with
    | SValue.bool v :: rest => (v, { s with block := rest, visited := s.visited ++ [name] })
    | _ => (x, { s with visited := s.visited ++ [name] })

/-- Stream one delegate: `SV(x)` for a nested serializable object, whose content is the
delegate's own business. -/
def streamNested (s : Serializer) (name : String) : Serializer :=
  if s.saving then
    { s with block := s.block ++ [SValue.nested], visited := s.visited ++ [name] }
  else
    match s.block with
    | SValue.nested :: rest => { s with block := rest, visited := s.visited ++ [name] }
    | _ => { s with visited := s.visited ++ [name] }

end Serializer

namespace PceCdRom

/-- The method `PceCdRom::Serialize`, on the controller fields. -/
def Serialize (s : Serializer) (st : ControllerState) : ControllerState × Serializer :=
  let r1 := s.streamU8 "_state.ActiveIrqs" st.ActiveIrqs
  let r2 := r1.2.streamBool "_state.BramLocked" st.BramLocked
  let r3 := r2.2.streamU8 "_state.EnabledIrqs" st.EnabledIrqs
  let r4 := r3.2.streamBool "_state.ReadRightChannel" st.ReadRightChannel
  let s5 := r4.2.streamNested "_scsi"
  let s6 := s5.streamNested "_adpcm"
  let s7 := s6.streamNested "_audioPlayer"
  let s8 := s7.streamNested "_audioFader"
  ({ ActiveIrqs := r1.1, EnabledIrqs := r3.1, BramLocked := r2.1, ReadRightChannel := r4.1 }, s8)

/-- Save a controller state into a fresh block. -/
def saveBlock (st : ControllerState) : List SValue :=
  (Serialize { saving := true, block := [], visited := [] } st).2.block

/-- Load a block into a controller holding `st`. -/
def loadBlock (block : List SValue) (st : ControllerState) : ControllerState :=
  (Serialize { saving := false, block := block, visited := [] } st).1

end PceCdRom

/-! ## Save-state manager -/

namespace SaveStateManager

/-- The constructor `SaveStateManager::SaveStateManager`: the selected slot. -/
def initialIndex : Nat := 1

/-- The method `SaveStateManager::MoveToNextSlot`, as the new `_lastIndex`; `MaxIndex` is a
constant declared outside the translated sources. -/
def MoveToNextSlot (MaxIndex lastIndex : Nat) : Nat :=
  (lastIndex % MaxIndex) + 1

/-- The method `SaveStateManager::MoveToPreviousSlot`, as the new `_lastIndex`.  The
subtraction is the machine one for every `lastIndex ≥ 1`. -/
def MoveToPreviousSlot (MaxIndex lastIndex : Nat) : Nat :=
  if lastIndex = 1 then MaxIndex else lastIndex - 1

/-- What `LoadState` reads from the emulator. -/
structure Emu where
  connected : Bool
  version : Nat
  consoleType : Nat
  running : Bool
  deriving DecidableEq, Repr

/-- What is declared outside the translated sources: the constant
`MinimumSupportedVersion` and the zlib routine `uncompress`, which returns the inflated
buffer exactly when it reports `MZ_OK`. -/
structure Externals where
  MinimumSupportedVersion : Nat
  uncompress : List Nat → Nat → Option (List Nat)

/-- An observable action of `LoadState`. -/
inductive Effect where
  | DisplayMessage (title : String) (message : String)
  | UpdateFrame (frame : List Nat) (width : Nat) (height : Nat)
  | MovieStop
  | Deserialize (rest : List Nat) (fileFormatVersion : Nat)
  deriving DecidableEq, Repr

/-- A little-endian `uint32_t` read into a zero-initialised variable: bytes the stream
no longer holds stay zero. -/
def le32 (bytes : List Nat) : Nat :=
  bytes.foldr (fun b acc => b + 256 * acc) 0

/-- The bytes `"MSS"`. -/
def magic : List Nat := [77, 83, 83]

/-- The method `SaveStateManager::GetScreenshotData`: the frame with its size when
`uncompress` succeeds, and the stream after the reads. -/
def GetScreenshotData (X : Externals) (stream : List Nat) :
    Option (List Nat × Nat × Nat) × List Nat :=
  let width := le32 (stream.take 4)
  let s1 := stream.drop 4
  let height := le32 (s1.take 4)
  let s2 := s1.drop 4
  let screenshotLength := le32 (s2.take 4)
  let s3 := s2.drop 4
  let got := s3.take screenshotLength
  let compressedData := got ++ List.replicate (screenshotLength - got.length) 0
  let s4 := s3.drop screenshotLength
  match X.uncompress compressedData ((width * height * 2) % 2 ^ 32) with
  | some out => (some (out, width, height), s4)
  | none => (none, s4)

/-- The method `SaveStateManager::LoadState(istream&, bool)`: the returned flag and the
actions performed, in order.  The result is `none` when the stream ends inside a field that
is read into an uninitialised variable and then inspected.  The screenshot block is the
one compiled when `LIBRETRO` is not defined, and `ConsoleType` occupies four bytes, as in
`GetSaveStatePreview`, which skips 44 bytes for the hash and the console type. -/
def LoadState (X : Externals) (emu : Emu) (stream : List Nat) : Option (Bool × List Effect) :=
  if emu.connected then
    some (false, [Effect.DisplayMessage "Netplay" "NetplayNotAllowed"])
  else if stream.length < 3 then none
  else if stream.take 3 = magic then
    let s1 := stream.drop 3
    if s1.length < 4 then none
    else
      let emuVersion := le32 (s1.take 4)
      if emuVersion > emu.version then
        some (false, [Effect.DisplayMessage "SaveStates" "SaveStateNewerVersion"])
      else
        let s2 := s1.drop 4
        if s2.length < 4 then none
        else
          let fileFormatVersion := le32 (s2.take 4)
          if fileFormatVersion < X.MinimumSupportedVersion then
            some (false, [Effect.DisplayMessage "SaveStates" "SaveStateIncompatibleVersion"])
          else
            let s3 := (s2.drop 4).drop 40
            if s3.length < 4 then none
            else
              let consoleType := le32 (s3.take 4)
              if consoleType ≠ emu.consoleType then
                some (false, [Effect.DisplayMessage "SaveStates" "SaveStateWrongSystem"])
              else
                let shot := GetScreenshotData X (s3.drop 4)
                let frameEffects : List Effect :=
                  match shot.1 with
                  | some (frame, width, height) => [Effect.UpdateFrame frame width height]
                  | none => []
                let nameLength := le32 (shot.2.take 4)
                let s4 := (shot.2.drop 4).drop nameLength
                if !emu.running then some (false, frameEffects)
                else
                  some (true,
                    frameEffects ++ [Effect.MovieStop, Effect.Deserialize s4 fileFormatVersion])
  else some (false, [Effect.DisplayMessage "SaveStates" "SaveStateInvalidFile"])

/-- The header fields the validation inspects, at their fixed offsets in the stream. -/
structure HeaderFields where
  tag : List Nat
  emuVersion : Nat
  fileFormatVersion : Nat
  consoleType : Nat
  deriving DecidableEq, Repr

/-- The header fields of a stream: three magic bytes, two 32-bit versions, a 40-byte
hash and the 32-bit console type. -/
def headerFields (stream : List Nat) : HeaderFields :=
  { tag := stream.take 3
    emuVersion := le32 ((stream.drop 3).take 4)
    fileFormatVersion := le32 ((stream.drop 7).take 4)
    consoleType := le32 ((stream.drop 51).take 4) }

/-- The validation as the claim words it: none of the six rejecting conditions holds. -/
def accepted (X : Externals) (emu : Emu) (stream : List Nat) : Bool :=
  !emu.connected
    && decide ((headerFields stream).tag = magic)
    && decide ((headerFields stream).emuVersion ≤ emu.version)
    && decide (X.MinimumSupportedVersion ≤ (headerFields stream).fileFormatVersion)
    && decide ((headerFields stream).consoleType = emu.consoleType)
    && emu.running

/-- Whether `Emulator::Deserialize` is among the actions. -/
def callsDeserialize (effects : List Effect) : Bool :=
  effects.any (fun e => match e with
    | Effect.Deserialize _ _ => true
    | _ => false)

/-- Example externals: format versions from 3 on are supported, and the inflater rejects
every buffer. -/
def exampleExternals : Externals :=
  { MinimumSupportedVersion := 3, uncompress := fun _ _ => none }

/-- An example emulator: version 7 of console 2, with a game running and no netplay. -/
def exampleEmu : Emu :=
  { connected := false, version := 7, consoleType := 2, running := true }

/-- An example save state: magic, emulator version 5, format version 4, a 40-byte hash,
console type 2, an empty screenshot (width, height and length zero), an empty rom name and
two bytes of emulator state. -/
def exampleStream : List Nat :=
  [77, 83, 83] ++ [5, 0, 0, 0] ++ [4, 0, 0, 0] ++ List.replicate 40 48 ++ [2, 0, 0, 0]
    ++ [0, 0, 0, 0] ++ [0, 0, 0, 0] ++ [0, 0, 0, 0] ++ [0, 0, 0, 0] ++ [9, 9]

end SaveStateManager

/-! ## Case analysis on the register dispatcher -/

namespace PceCdRom

variable {W : Type}

theorem UpdateIrqState_state (m : PceCdRom W) : (UpdateIrqState m).state = m.state := by
  unfold UpdateIrqState
  split <;> rfl

theorem UpdateIrqState_dev (m : PceCdRom W) : (UpdateIrqState m).dev = m.dev := by
  unfold UpdateIrqState
  split <;> rfl

theorem UpdateIrqState_callbacks (m : PceCdRom W) :
    (UpdateIrqState m).callbacks = m.callbacks := by
  unfold UpdateIrqState
  split <;> rfl

theorem applyIrqCall_dev (m : PceCdRom W) (c : IrqCall) : (applyIrqCall m c).dev = m.dev := by
  cases c <;> simp only [applyIrqCall, SetIrqSource, ClearIrqSource] <;> split <;>
    first | rfl | (rw [UpdateIrqState_dev])

theorem foldl_applyIrqCall_dev (calls : List IrqCall) :
    ∀ m : PceCdRom W, (calls.foldl applyIrqCall m).dev = m.dev := by
  induction calls with
  | nil => intro m; rfl
  | cons c rest ih =>
    intro m
    rw [List.foldl_cons, ih, applyIrqCall_dev]

theorem reenter_dev (m : PceCdRom W) (calls : List IrqCall) : (reenter m calls).dev = m.dev := by
  show (calls.foldl applyIrqCall { m with log := m.callbackLog }).dev = m.dev
  rw [foldl_applyIrqCall_dev]

theorem reenter_nil (m : PceCdRom W) : reenter m [] = m := by
  cases m
  simp [reenter]

theorem foldl_applyIrqCall_stable {ok : PceCdRomIrqSource → Prop} {I : PceCdRom W → Prop}
    (hI : StableUnder ok I) (calls : List IrqCall) (hc : callsWithin ok calls) :
    ∀ m : PceCdRom W, I m → I (calls.foldl applyIrqCall m) := by
  induction calls with
  | nil => intro m h; exact h
  | cons c rest ih =>
    intro m h
    rw [List.foldl_cons]
    apply ih (fun d hd => hc d (List.mem_cons_of_mem _ hd))
    have hok := hc c (List.mem_cons_self _ _)
    cases c with
    | SetIrqSource src => exact hI.1 m src hok h
    | ClearIrqSource src => exact hI.2.1 m src hok h

/-- Serving admitted calls back keeps a stable property. -/
theorem reenter_stable {ok : PceCdRomIrqSource → Prop} {I : PceCdRom W → Prop}
    (hI : StableUnder ok I) (m : PceCdRom W) (calls : List IrqCall)
    (hc : callsWithin ok calls) (h : I m) : I (reenter m calls) := by
  have h0 : I { m with log := m.callbackLog } := hI.2.2 m _ rfl rfl h
  have h1 := foldl_applyIrqCall_stable hI calls hc _ h0
  exact hI.2.2 (calls.foldl applyIrqCall { m with log := m.callbackLog }) (reenter m calls)
    rfl rfl h1

theorem scsiSetSignalValue_stable {ok : PceCdRomIrqSource → Prop} {I : PceCdRom W → Prop}
    (hI : StableUnder ok I) (P : Collaborators W) (hP : reportsOnly P ok) (m : PceCdRom W)
    (sig : ScsiSignal) (val : Bool) (h : I m) : I (scsiSetSignalValue P m sig val) :=
  reenter_stable hI _ _ (hP.1 _ _ _) (hI.2.2 m _ rfl rfl h)

theorem scsiUpdateState_stable {ok : PceCdRomIrqSource → Prop} {I : PceCdRom W → Prop}
    (hI : StableUnder ok I) (P : Collaborators W) (hP : reportsOnly P ok) (m : PceCdRom W)
    (h : I m) : I (scsiUpdateState P m) :=
  reenter_stable hI _ _ (hP.2.1 _) (hI.2.2 m _ rfl rfl h)

theorem scsiSetDataPort_stable {ok : PceCdRomIrqSource → Prop} {I : PceCdRom W → Prop}
    (hI : StableUnder ok I) (P : Collaborators W) (hP : reportsOnly P ok) (m : PceCdRom W)
    (value : Nat) (h : I m) : I (scsiSetDataPort P m value) :=
  reenter_stable hI _ _ (hP.2.2.1 _ _) (hI.2.2 m _ rfl rfl h)

theorem scsiSetAckWithAutoClear_stable {ok : PceCdRomIrqSource → Prop}
    {I : PceCdRom W → Prop} (hI : StableUnder ok I) (P : Collaborators W)
    (hP : reportsOnly P ok) (m : PceCdRom W) (h : I m) :
    I (scsiSetAckWithAutoClear P m) :=
  reenter_stable hI _ _ (hP.2.2.2.1 _) (hI.2.2 m _ rfl rfl h)

theorem adpcmWrite_stable {ok : PceCdRomIrqSource → Prop} {I : PceCdRom W → Prop}
    (hI : StableUnder ok I) (P : Collaborators W) (hP : reportsOnly P ok) (m : PceCdRom W)
    (addr value : Nat) (h : I m) : I (adpcmWrite P m addr value) :=
  reenter_stable hI _ _ (hP.2.2.2.2.1 _ _ _) (hI.2.2 m _ rfl rfl h)

theorem adpcmRead_stable {ok : PceCdRomIrqSource → Prop} {I : PceCdRom W → Prop}
    (hI : StableUnder ok I) (P : Collaborators W) (hP : reportsOnly P ok) (m : PceCdRom W)
    (addr : Nat) (h : I m) : I (adpcmRead P m addr).2 :=
  reenter_stable hI _ _ (hP.2.2.2.2.2.1 _ _) (hI.2.2 m _ rfl rfl h)

theorem faderWrite_stable {ok : PceCdRomIrqSource → Prop} {I : PceCdRom W → Prop}
    (hI : StableUnder ok I) (P : Collaborators W) (hP : reportsOnly P ok) (m : PceCdRom W)
    (value : Nat) (h : I m) : I (faderWrite P m value) :=
  reenter_stable hI _ _ (hP.2.2.2.2.2.2 _ _) (hI.2.2 m _ rfl rfl h)

/-- Every set of collaborators reports only sources, whatever they are. -/
theorem reportsOnly_any (P : Collaborators W) : reportsOnly P (fun _ => True) :=
  ⟨fun _ _ _ _ _ => trivial, fun _ _ _ => trivial, fun _ _ _ _ => trivial,
    fun _ _ _ => trivial, fun _ _ _ _ _ => trivial, fun _ _ _ _ => trivial,
    fun _ _ _ _ => trivial⟩

/-- Case analysis on `Read`, by the decoded offset. -/
theorem Read_elim {motive : Nat × PceCdRom W → Prop} (P : Collaborators W) (m : PceCdRom W)
    (addr : Nat)
    (c0 : addr &&& 0x3FF = 0x00 → motive (P.GetStatus m.dev, emit m Call.GetStatus))
    (c1 : addr &&& 0x3FF = 0x01 → motive (P.GetDataPort m.dev, emit m Call.GetDataPort))
    (c2 : addr &&& 0x3FF = 0x02 →
      motive (m.state.EnabledIrqs ||| (if P.CheckSignal m.dev ScsiSignal.Ack then 0x80 else 0),
        emit m (Call.CheckSignal ScsiSignal.Ack)))
    (c3 : addr &&& 0x3FF = 0x03 →
      motive (m.state.ActiveIrqs ||| (if (!m.state.ReadRightChannel) = true then 0 else 0x02),
        { m with state := { m.state with
            BramLocked := true, ReadRightChannel := !m.state.ReadRightChannel } }))
    (c4 : addr &&& 0x3FF = 0x04 →
      motive ((if P.CheckSignal m.dev ScsiSignal.Rst then 0x02 else 0),
        emit m (Call.CheckSignal ScsiSignal.Rst)))
    (c5 : addr &&& 0x3FF = 0x05 →
      motive (u8OfInt (selectedSample P m).1, (selectedSample P m).2))
    (c6 : addr &&& 0x3FF = 0x06 →
      motive (u8OfInt ((selectedSample P m).1 >>> (8 : Nat)), (selectedSample P m).2))
    (c7 : addr &&& 0x3FF = 0x07 → motive ((if m.state.BramLocked then 0 else 0x80), m))
    (c8a : addr &&& 0x3FF = 0x08 → P.CheckSignal m.dev ScsiSignal.Req = true →
      P.CheckSignal m.dev ScsiSignal.Io = true → P.CheckSignal m.dev ScsiSignal.Cd = false →
      motive (P.GetDataPort m.dev, scsiUpdateState P (scsiSetAckWithAutoClear P
        (emit (emit (emit (emit m Call.GetDataPort) (Call.CheckSignal ScsiSignal.Req))
          (Call.CheckSignal ScsiSignal.Io)) (Call.CheckSignal ScsiSignal.Cd)))))
    (c8b : addr &&& 0x3FF = 0x08 → P.CheckSignal m.dev ScsiSignal.Req = true →
      P.CheckSignal m.dev ScsiSignal.Io = true → P.CheckSignal m.dev ScsiSignal.Cd = true →
      motive (P.GetDataPort m.dev,
        emit (emit (emit (emit m Call.GetDataPort) (Call.CheckSignal ScsiSignal.Req))
          (Call.CheckSignal ScsiSignal.Io)) (Call.CheckSignal ScsiSignal.Cd)))
    (c8c : addr &&& 0x3FF = 0x08 → P.CheckSignal m.dev ScsiSignal.Req = true →
      P.CheckSignal m.dev ScsiSignal.Io = false →
      motive (P.GetDataPort m.dev,
        emit (emit (emit m Call.GetDataPort) (Call.CheckSignal ScsiSignal.Req))
          (Call.CheckSignal ScsiSignal.Io)))
    (c8d : addr &&& 0x3FF = 0x08 → P.CheckSignal m.dev ScsiSignal.Req = false →
      motive (P.GetDataPort m.dev,
        emit (emit m Call.GetDataPort) (Call.CheckSignal ScsiSignal.Req)))
    (c9 : 0x09 ≤ addr &&& 0x3FF → addr &&& 0x3FF ≤ 0x0E →
      motive (adpcmRead P m addr))
    (cCa : 0xC0 ≤ addr &&& 0x3FF → addr &&& 0x3FF ≤ 0xC3 →
      P.CdRomType m.dev = PceCdRomType.CdRom → motive (0xFF, emit m Call.GetPcEngineConfig))
    (cCb : 0xC0 ≤ addr &&& 0x3FF → addr &&& 0x3FF ≤ 0xC3 →
      P.CdRomType m.dev ≠ PceCdRomType.CdRom →
      motive (superCdRomSignature.getD (addr &&& 0x03) 0, emit m Call.GetPcEngineConfig))
    (cD : 0x0E < addr &&& 0x3FF → ¬ (0xC0 ≤ addr &&& 0x3FF ∧ addr &&& 0x3FF ≤ 0xC3) →
      motive (0xFF, emit m (Call.LogDebug addr))) :
    motive (Read P m addr) := by
  unfold Read
  dsimp only
  by_cases h0 : addr &&& 0x3FF = 0x00
  · rw [if_pos h0]; exact c0 h0
  rw [if_neg h0]
  by_cases h1 : addr &&& 0x3FF = 0x01
  · rw [if_pos h1]; exact c1 h1
  rw [if_neg h1]
  by_cases h2 : addr &&& 0x3FF = 0x02
  · rw [if_pos h2]; exact c2 h2
  rw [if_neg h2]
  by_cases h3 : addr &&& 0x3FF = 0x03
  · rw [if_pos h3]; exact c3 h3
  rw [if_neg h3]
  by_cases h4 : addr &&& 0x3FF = 0x04
  · rw [if_pos h4]; exact c4 h4
  rw [if_neg h4]
  by_cases h5 : addr &&& 0x3FF = 0x05
  · rw [if_pos h5]; exact c5 h5
  rw [if_neg h5]
  by_cases h6 : addr &&& 0x3FF = 0x06
  · rw [if_pos h6]; exact c6 h6
  rw [if_neg h6]
  by_cases h7 : addr &&& 0x3FF = 0x07
  · rw [if_pos h7]; exact c7 h7
  rw [if_neg h7]
  by_cases h8 : addr &&& 0x3FF = 0x08
  · rw [if_pos h8]
    cases hreq : P.CheckSignal m.dev ScsiSignal.Req
    · simpa using c8d h8 hreq
    · cases hio : P.CheckSignal m.dev ScsiSignal.Io
      · simpa using c8c h8 hreq hio
      · cases hcd : P.CheckSignal m.dev ScsiSignal.Cd
        · simpa using c8a h8 hreq hio hcd
        · simpa using c8b h8 hreq hio hcd
  rw [if_neg h8]
  by_cases h9 : 0x09 ≤ addr &&& 0x3FF ∧ addr &&& 0x3FF ≤ 0x0E
  · rw [if_pos h9]; exact c9 h9.1 h9.2
  rw [if_neg h9]
  by_cases hC : 0xC0 ≤ addr &&& 0x3FF ∧ addr &&& 0x3FF ≤ 0xC3
  · rw [if_pos hC]
    by_cases ht : P.CdRomType m.dev = PceCdRomType.CdRom
    · rw [if_pos ht]; exact cCa hC.1 hC.2 ht
    · rw [if_neg ht]; exact cCb hC.1 hC.2 ht
  rw [if_neg hC]
  exact cD (by omega) hC

/-- Case analysis on `Write`, by the decoded offset. -/
theorem Write_elim {motive : PceCdRom W → Prop} (P : Collaborators W) (m : PceCdRom W)
    (addr value : Nat)
    (w0 : addr &&& 0x3FF = 0x00 →
      motive (scsiUpdateState P (scsiSetSignalValue P
        (scsiUpdateState P (scsiSetSignalValue P m ScsiSignal.Sel true)) ScsiSignal.Sel false)))
    (w1 : addr &&& 0x3FF = 0x01 → motive (scsiUpdateState P (scsiSetDataPort P m value)))
    (w2 : addr &&& 0x3FF = 0x02 →
      motive (UpdateIrqState
        { scsiUpdateState P
            (scsiSetSignalValue P m ScsiSignal.Ack (decide ((value &&& 0x80) ≠ 0))) with
          state := { (scsiUpdateState P
            (scsiSetSignalValue P m ScsiSignal.Ack (decide ((value &&& 0x80) ≠ 0)))).state with
              EnabledIrqs := value &&& 0x7C } }))
    (w3 : addr &&& 0x3FF = 0x03 → motive m)
    (w4a : addr &&& 0x3FF = 0x04 → (value &&& 0x02) ≠ 0 →
      motive (UpdateIrqState
        { scsiUpdateState P (scsiSetSignalValue P m ScsiSignal.Rst true) with
          state := { (scsiUpdateState P (scsiSetSignalValue P m ScsiSignal.Rst true)).state with
            EnabledIrqs := (scsiUpdateState P
              (scsiSetSignalValue P m ScsiSignal.Rst true)).state.EnabledIrqs &&& 0x8F } }))
    (w4b : addr &&& 0x3FF = 0x04 → (value &&& 0x02) = 0 →
      motive (scsiUpdateState P (scsiSetSignalValue P m ScsiSignal.Rst false)))
    (w56 : addr &&& 0x3FF = 0x05 ∨ addr &&& 0x3FF = 0x06 → motive m)
    (w7a : addr &&& 0x3FF = 0x07 → (value &&& 0x80) ≠ 0 →
      motive { m with state := { m.state with BramLocked := false } })
    (w7b : addr &&& 0x3FF = 0x07 → (value &&& 0x80) = 0 → motive m)
    (w8 : 0x08 ≤ addr &&& 0x3FF → addr &&& 0x3FF ≤ 0x0E →
      motive (adpcmWrite P m addr value))
    (wF : addr &&& 0x3FF = 0x0F →
      motive (faderWrite P m value))
    (wD : 0x0F < addr &&& 0x3FF → motive m) :
    motive (Write P m addr value) := by
  unfold Write
  dsimp only
  by_cases h0 : addr &&& 0x3FF = 0x00
  · rw [if_pos h0]; exact w0 h0
  rw [if_neg h0]
  by_cases h1 : addr &&& 0x3FF = 0x01
  · rw [if_pos h1]; exact w1 h1
  rw [if_neg h1]
  by_cases h2 : addr &&& 0x3FF = 0x02
  · rw [if_pos h2]; exact w2 h2
  rw [if_neg h2]
  by_cases h3 : addr &&& 0x3FF = 0x03
  · rw [if_pos h3]; exact w3 h3
  rw [if_neg h3]
  by_cases h4 : addr &&& 0x3FF = 0x04
  · rw [if_pos h4]
    by_cases hr : (value &&& 0x02) = 0
    · simpa [hr] using w4b h4 hr
    · simpa [hr] using w4a h4 hr
  rw [if_neg h4]
  by_cases h56 : addr &&& 0x3FF = 0x05 ∨ addr &&& 0x3FF = 0x06
  · rw [if_pos h56]; exact w56 h56
  rw [if_neg h56]
  by_cases h7 : addr &&& 0x3FF = 0x07
  · rw [if_pos h7]
    by_cases hb : (value &&& 0x80) = 0
    · simpa [hb] using w7b h7 hb
    · simpa [hb] using w7a h7 hb
  rw [if_neg h7]
  by_cases h8 : 0x08 ≤ addr &&& 0x3FF ∧ addr &&& 0x3FF ≤ 0x0E
  · rw [if_pos h8]; exact w8 h8.1 h8.2
  rw [if_neg h8]
  by_cases hF : addr &&& 0x3FF = 0x0F
  · rw [if_pos hF]; exact wF hF
  rw [if_neg hF]
  exact wD (by omega)

/-- The second component of the selected sample: the controller with the one call. -/
theorem selectedSample_snd (P : Collaborators W) (m : PceCdRom W) :
    (selectedSample P m).2 =
      emit m (if m.state.ReadRightChannel then Call.GetRightSample else Call.GetLeftSample) := by
  cases h : m.state.ReadRightChannel <;> simp [selectedSample, h]

/-- The first component of the selected sample. -/
theorem selectedSample_fst (P : Collaborators W) (m : PceCdRom W) :
    (selectedSample P m).1 =
      if m.state.ReadRightChannel then P.GetRightSample m.dev else P.GetLeftSample m.dev := by
  cases h : m.state.ReadRightChannel <;> simp [selectedSample, h]

/-- What was issued, when the log grew by `t`. -/
theorem issued_of_log {before after : PceCdRom W} {t : List Call}
    (h : after.log = before.log ++ t) : issued before after = t := by
  simp [issued, h]

end PceCdRom

/-! ## Properties kept by every register access -/

namespace PceCdRom

variable {W : Type}

/-- A stable property that the direct assignments of `Write` keep is kept by `Write`. -/
theorem Write_stable {ok : PceCdRomIrqSource → Prop} {I : PceCdRom W → Prop}
    (hI : StableUnder ok I) (P : Collaborators W) (hP : reportsOnly P ok) (m : PceCdRom W)
    (addr value : Nat)
    (h2 : ∀ n : PceCdRom W, I n →
      I (UpdateIrqState { n with state := { n.state with EnabledIrqs := value &&& 0x7C } }))
    (h4 : ∀ n : PceCdRom W, I n →
      I (UpdateIrqState
        { n with state := { n.state with EnabledIrqs := n.state.EnabledIrqs &&& 0x8F } }))
    (h7 : ∀ n : PceCdRom W, I n → I { n with state := { n.state with BramLocked := false } })
    (h : I m) : I (Write P m addr value) := by
  apply Write_elim P m addr value
  case w0 =>
    intro _
    exact scsiUpdateState_stable hI P hP _ (scsiSetSignalValue_stable hI P hP _ _ _
      (scsiUpdateState_stable hI P hP _ (scsiSetSignalValue_stable hI P hP _ _ _ h)))
  case w1 =>
    intro _
    exact scsiUpdateState_stable hI P hP _ (scsiSetDataPort_stable hI P hP _ _ h)
  case w2 =>
    intro _
    exact h2 _ (scsiUpdateState_stable hI P hP _ (scsiSetSignalValue_stable hI P hP _ _ _ h))
  case w4a =>
    intro _ _
    exact h4 _ (scsiUpdateState_stable hI P hP _ (scsiSetSignalValue_stable hI P hP _ _ _ h))
  case w4b =>
    intro _ _
    exact scsiUpdateState_stable hI P hP _ (scsiSetSignalValue_stable hI P hP _ _ _ h)
  case w7a =>
    intro _ _
    exact h7 _ h
  case w8 =>
    intro _ _
    exact adpcmWrite_stable hI P hP _ _ _ h
  case wF =>
    intro _
    exact faderWrite_stable hI P hP _ _ h
  all_goals
    intros
    exact h

/-- A stable property that the status read keeps is kept by `Read`. -/
theorem Read_stable {ok : PceCdRomIrqSource → Prop} {I : PceCdRom W → Prop}
    (hI : StableUnder ok I) (P : Collaborators W) (hP : reportsOnly P ok) (m : PceCdRom W)
    (addr : Nat)
    (h3 : ∀ n : PceCdRom W, I n →
      I { n with state := { n.state with
            BramLocked := true, ReadRightChannel := !n.state.ReadRightChannel } })
    (h : I m) : I (Read P m addr).2 := by
  have hemit : ∀ (n : PceCdRom W) (c : Call), I n → I (emit n c) :=
    fun n c hn => hI.2.2 n (emit n c) rfl rfl hn
  apply Read_elim (motive := fun r => I r.2) P m addr
  case c3 =>
    intro _
    exact h3 _ h
  case c5 =>
    intro _
    show I (selectedSample P m).2
    rw [selectedSample_snd]
    exact hemit _ _ h
  case c6 =>
    intro _
    show I (selectedSample P m).2
    rw [selectedSample_snd]
    exact hemit _ _ h
  case c7 =>
    intro _
    exact h
  case c8a =>
    intro _ _ _ _
    exact scsiUpdateState_stable hI P hP _ (scsiSetAckWithAutoClear_stable hI P hP _
      (hemit _ _ (hemit _ _ (hemit _ _ (hemit _ _ h)))))
  case c8b =>
    intro _ _ _ _
    exact hemit _ _ (hemit _ _ (hemit _ _ (hemit _ _ h)))
  case c8c =>
    intro _ _ _
    exact hemit _ _ (hemit _ _ (hemit _ _ h))
  case c8d =>
    intro _ _
    exact hemit _ _ (hemit _ _ h)
  case c9 =>
    intro _ _
    exact adpcmRead_stable hI P hP _ _ h
  all_goals
    intros
    exact hemit _ _ h

/-- A stable property kept by `Write` and `Read` is kept by every sequence of operations
that names admitted sources only. -/
theorem run_stable {ok : PceCdRomIrqSource → Prop} {I : PceCdRom W → Prop}
    (hI : StableUnder ok I) (P : Collaborators W)
    (hW : ∀ (n : PceCdRom W) (addr value : Nat), I n → I (Write P n addr value))
    (hR : ∀ (n : PceCdRom W) (addr : Nat), I n → I (Read P n addr).2)
    (ops : List Op) :
    (∀ op ∈ ops, opWithin ok op) → ∀ m : PceCdRom W, I m → I (run P m ops) := by
  induction ops with
  | nil => intro _ m h; exact h
  | cons op rest ih =>
    intro hops m h
    apply ih (fun o ho => hops o (List.mem_cons_of_mem _ ho))
    have hop := hops op (List.mem_cons_self _ _)
    cases op with
    | Write addr value => exact hW m addr value h
    | Read addr => exact hR m addr h
    | SetIrqSource src => exact hI.1 m src hop h
    | ClearIrqSource src => exact hI.2.1 m src hop h

theorem opWithin_any (ops : List Op) : ∀ op ∈ ops, opWithin (fun _ => True) op := by
  intro op _
  cases op <;> exact trivial

/-! ## The interrupt aggregator -/

theorem lineAgrees_UpdateIrqState (m : PceCdRom W) : lineAgrees (UpdateIrqState m) := by
  unfold lineAgrees UpdateIrqState
  split <;> simp_all [memSetIrqSource, memClearIrqSource]

theorem lineAgrees_SetIrqSource (m : PceCdRom W) (src : PceCdRomIrqSource)
    (h : lineAgrees m) : lineAgrees (SetIrqSource m src) := by
  unfold SetIrqSource
  split
  · exact lineAgrees_UpdateIrqState _
  · exact h

theorem lineAgrees_ClearIrqSource (m : PceCdRom W) (src : PceCdRomIrqSource)
    (h : lineAgrees m) : lineAgrees (ClearIrqSource m src) := by
  unfold ClearIrqSource
  split
  · exact lineAgrees_UpdateIrqState _
  · exact h

theorem lineAgrees_stable : StableUnder (fun _ => True) (lineAgrees (W := W)) := by
  refine ⟨fun m src _ h => lineAgrees_SetIrqSource m src h,
    fun m src _ h => lineAgrees_ClearIrqSource m src h, ?_⟩
  intro m n hs hi h
  unfold lineAgrees at *
  rw [← hs, ← hi]
  exact h

theorem lineAgrees_Write (P : Collaborators W) (m : PceCdRom W) (addr value : Nat)
    (h : lineAgrees m) : lineAgrees (Write P m addr value) :=
  Write_stable lineAgrees_stable P (reportsOnly_any P) m addr value
    (fun _ _ => lineAgrees_UpdateIrqState _) (fun _ _ => lineAgrees_UpdateIrqState _)
    (fun _ hn => hn) h

theorem lineAgrees_Read (P : Collaborators W) (m : PceCdRom W) (addr : Nat)
    (h : lineAgrees m) : lineAgrees (Read P m addr).2 :=
  Read_stable lineAgrees_stable P (reportsOnly_any P) m addr (fun _ hn => hn) h

theorem lineAgrees_run (P : Collaborators W) (ops : List Op) :
    ∀ m : PceCdRom W, lineAgrees m → lineAgrees (run P m ops) :=
  run_stable lineAgrees_stable P (fun n a v hn => lineAgrees_Write P n a v hn)
    (fun n a hn => lineAgrees_Read P n a hn) ops (opWithin_any ops)

/-- C1: from power-on, after every sequence of Write, Read, SetIrqSource and
ClearIrqSource calls, the downstream Irq2 line is asserted if and only if
`EnabledIrqs & ActiveIrqs` is non-zero. -/
theorem C1_irq_line_invariant (P : Collaborators W) (dev : W) (ops : List Op) :
    (run P (powerOn dev) ops).irq2 = true ↔
      ((run P (powerOn dev) ops).state.EnabledIrqs
        &&& (run P (powerOn dev) ops).state.ActiveIrqs) ≠ 0 := by
  have h0 : lineAgrees (powerOn dev) := by
    simp [lineAgrees, powerOn, powerOnState]
  exact lineAgrees_run P ops (powerOn dev) h0

/-! ## The enabled mask -/

theorem enabledWithinMask_of_state {m n : PceCdRom W}
    (h : n.state.EnabledIrqs = m.state.EnabledIrqs) (hm : enabledWithinMask m) :
    enabledWithinMask n := by
  unfold enabledWithinMask at *
  rw [h]; exact hm

theorem and_7C_idem (v : Nat) : (v &&& 0x7C) &&& 0x7C = v &&& 0x7C := by
  rw [Nat.and_assoc, Nat.and_self]

theorem and_8F_within (e : Nat) (h : e &&& 0x7C = e) : (e &&& 0x8F) &&& 0x7C = e &&& 0x8F := by
  rw [Nat.and_assoc, Nat.and_comm 0x8F 0x7C, ← Nat.and_assoc, h]

theorem enabledWithinMask_SetIrqSource (m : PceCdRom W) (src : PceCdRomIrqSource)
    (h : enabledWithinMask m) : enabledWithinMask (SetIrqSource m src) := by
  unfold SetIrqSource
  split
  · exact enabledWithinMask_of_state (by rw [UpdateIrqState_state]) h
  · exact h

theorem enabledWithinMask_ClearIrqSource (m : PceCdRom W) (src : PceCdRomIrqSource)
    (h : enabledWithinMask m) : enabledWithinMask (ClearIrqSource m src) := by
  unfold ClearIrqSource
  split
  · exact enabledWithinMask_of_state (by rw [UpdateIrqState_state]) h
  · exact h

theorem enabledWithinMask_stable :
    StableUnder (fun _ => True) (enabledWithinMask (W := W)) := by
  refine ⟨fun m src _ h => enabledWithinMask_SetIrqSource m src h,
    fun m src _ h => enabledWithinMask_ClearIrqSource m src h, ?_⟩
  intro m n hs _ h
  exact enabledWithinMask_of_state (by rw [hs]) h

theorem enabledWithinMask_Write (P : Collaborators W) (m : PceCdRom W) (addr value : Nat)
    (h : enabledWithinMask m) : enabledWithinMask (Write P m addr value) := by
  apply Write_stable enabledWithinMask_stable P (reportsOnly_any P) m addr value ?_ ?_ ?_ h
  · intro n _
    unfold enabledWithinMask
    rw [UpdateIrqState_state]
    exact and_7C_idem value
  · intro n hn
    unfold enabledWithinMask
    rw [UpdateIrqState_state]
    exact and_8F_within _ hn
  · intro n hn
    exact hn

theorem enabledWithinMask_Read (P : Collaborators W) (m : PceCdRom W) (addr : Nat)
    (h : enabledWithinMask m) : enabledWithinMask (Read P m addr).2 :=
  Read_stable enabledWithinMask_stable P (reportsOnly_any P) m addr (fun _ hn => hn) h

theorem enabledWithinMask_run (P : Collaborators W) (ops : List Op) :
    ∀ m : PceCdRom W, enabledWithinMask m → enabledWithinMask (run P m ops) :=
  run_stable enabledWithinMask_stable P (fun n a v hn => enabledWithinMask_Write P n a v hn)
    (fun n a hn => enabledWithinMask_Read P n a hn) ops (opWithin_any ops)

/-- C2: from power-on, after every sequence of Write, Read, SetIrqSource and
ClearIrqSource calls, `EnabledIrqs & ~0x7C` is zero: the mask has no bit outside `0x7C`,
so its bits 0, 1 and 7 are clear. -/
theorem C2_enabled_mask_invariant (P : Collaborators W) (dev : W) (ops : List Op) :
    (run P (powerOn dev) ops).state.EnabledIrqs &&& (0xFF ^^^ 0x7C) = 0
      ∧ (run P (powerOn dev) ops).state.EnabledIrqs &&& 0x7C
          = (run P (powerOn dev) ops).state.EnabledIrqs
      ∧ (run P (powerOn dev) ops).state.EnabledIrqs.testBit 0 = false
      ∧ (run P (powerOn dev) ops).state.EnabledIrqs.testBit 1 = false
      ∧ (run P (powerOn dev) ops).state.EnabledIrqs.testBit 7 = false := by
  have h0 : enabledWithinMask (powerOn dev) := by
    simp [enabledWithinMask, powerOn, powerOnState]
  have h := enabledWithinMask_run P ops (powerOn dev) h0
  unfold enabledWithinMask at h
  generalize (run P (powerOn dev) ops).state.EnabledIrqs = e at h
  refine ⟨?_, h, ?_, ?_, ?_⟩
  · have hz : (0x7C &&& (0xFF ^^^ 0x7C) : Nat) = 0 := by decide
    rw [← h, Nat.and_assoc, hz, Nat.and_zero]
  · have hb : Nat.testBit 0x7C 0 = false := by decide
    rw [← h, Nat.testBit_and, hb, Bool.and_false]
  · have hb : Nat.testBit 0x7C 1 = false := by decide
    rw [← h, Nat.testBit_and, hb, Bool.and_false]
  · have hb : Nat.testBit 0x7C 7 = false := by decide
    rw [← h, Nat.testBit_and, hb, Bool.and_false]

end PceCdRom

/-! ## The register dispatcher at single offsets -/

namespace PceCdRom

variable {W : Type}

theorem Read_off02 (P : Collaborators W) (m : PceCdRom W) (addr : Nat)
    (h : addr &&& 0x3FF = 0x02) :
    Read P m addr =
      (m.state.EnabledIrqs ||| (if P.CheckSignal m.dev ScsiSignal.Ack then 0x80 else 0),
        emit m (Call.CheckSignal ScsiSignal.Ack)) := by
  apply Read_elim (motive := fun r => r = _) P m addr <;> intros <;> first | rfl | omega

theorem Read_off03 (P : Collaborators W) (m : PceCdRom W) (addr : Nat)
    (h : addr &&& 0x3FF = 0x03) :
    Read P m addr =
      (m.state.ActiveIrqs ||| (if (!m.state.ReadRightChannel) = true then 0 else 0x02),
        { m with state := { m.state with
            BramLocked := true, ReadRightChannel := !m.state.ReadRightChannel } }) := by
  apply Read_elim (motive := fun r => r = _) P m addr <;> intros <;> first | rfl | omega

theorem Read_off05 (P : Collaborators W) (m : PceCdRom W) (addr : Nat)
    (h : addr &&& 0x3FF = 0x05) :
    Read P m addr = (u8OfInt (selectedSample P m).1, (selectedSample P m).2) := by
  apply Read_elim (motive := fun r => r = _) P m addr <;> intros <;> first | rfl | omega

theorem Read_off06 (P : Collaborators W) (m : PceCdRom W) (addr : Nat)
    (h : addr &&& 0x3FF = 0x06) :
    Read P m addr =
      (u8OfInt ((selectedSample P m).1 >>> (8 : Nat)), (selectedSample P m).2) := by
  apply Read_elim (motive := fun r => r = _) P m addr <;> intros <;> first | rfl | omega

theorem Read_off07 (P : Collaborators W) (m : PceCdRom W) (addr : Nat)
    (h : addr &&& 0x3FF = 0x07) :
    Read P m addr = ((if m.state.BramLocked then 0 else 0x80), m) := by
  apply Read_elim (motive := fun r => r = _) P m addr <;> intros <;> first | rfl | omega

theorem Write_off00 (P : Collaborators W) (m : PceCdRom W) (addr value : Nat)
    (h : addr &&& 0x3FF = 0x00) :
    Write P m addr value =
      scsiUpdateState P (scsiSetSignalValue P
        (scsiUpdateState P (scsiSetSignalValue P m ScsiSignal.Sel true)) ScsiSignal.Sel false) := by
  apply Write_elim (motive := fun r => r = _) P m addr value <;> intros <;> first | rfl | omega

theorem Write_off02 (P : Collaborators W) (m : PceCdRom W) (addr value : Nat)
    (h : addr &&& 0x3FF = 0x02) :
    Write P m addr value =
      UpdateIrqState
        { scsiUpdateState P
            (scsiSetSignalValue P m ScsiSignal.Ack (decide ((value &&& 0x80) ≠ 0))) with
          state := { (scsiUpdateState P
            (scsiSetSignalValue P m ScsiSignal.Ack (decide ((value &&& 0x80) ≠ 0)))).state with
              EnabledIrqs := value &&& 0x7C } } := by
  apply Write_elim (motive := fun r => r = _) P m addr value <;> intros <;> first | rfl | omega

theorem Write_off04_reset (P : Collaborators W) (m : PceCdRom W) (addr value : Nat)
    (h : addr &&& 0x3FF = 0x04) (hv : (value &&& 0x02) ≠ 0) :
    Write P m addr value =
      UpdateIrqState
        { scsiUpdateState P (scsiSetSignalValue P m ScsiSignal.Rst true) with
          state := { (scsiUpdateState P (scsiSetSignalValue P m ScsiSignal.Rst true)).state with
            EnabledIrqs := (scsiUpdateState P
              (scsiSetSignalValue P m ScsiSignal.Rst true)).state.EnabledIrqs &&& 0x8F } } := by
  apply Write_elim (motive := fun r => r = _) P m addr value <;> intros <;>
    first | rfl | omega

theorem Write_off04_idle (P : Collaborators W) (m : PceCdRom W) (addr value : Nat)
    (h : addr &&& 0x3FF = 0x04) (hv : (value &&& 0x02) = 0) :
    Write P m addr value = scsiUpdateState P (scsiSetSignalValue P m ScsiSignal.Rst false) := by
  apply Write_elim (motive := fun r => r = _) P m addr value <;> intros <;>
    first | rfl | omega

theorem Write_off07 (P : Collaborators W) (m : PceCdRom W) (addr value : Nat)
    (h : addr &&& 0x3FF = 0x07) :
    Write P m addr value =
      if (value &&& 0x80) ≠ 0 then { m with state := { m.state with BramLocked := false } }
      else m := by
  apply Write_elim (motive := fun r => r = _) P m addr value <;> intros <;>
    first | omega | simp_all

/-! ## What the delegate calls leave alone -/

theorem SetIrqSource_rest (m : PceCdRom W) (src : PceCdRomIrqSource) :
    (SetIrqSource m src).state.EnabledIrqs = m.state.EnabledIrqs
      ∧ (SetIrqSource m src).state.BramLocked = m.state.BramLocked
      ∧ (SetIrqSource m src).state.ReadRightChannel = m.state.ReadRightChannel := by
  unfold SetIrqSource
  split
  · rw [UpdateIrqState_state]
    exact ⟨rfl, rfl, rfl⟩
  · exact ⟨rfl, rfl, rfl⟩

theorem ClearIrqSource_rest (m : PceCdRom W) (src : PceCdRomIrqSource) :
    (ClearIrqSource m src).state.EnabledIrqs = m.state.EnabledIrqs
      ∧ (ClearIrqSource m src).state.BramLocked = m.state.BramLocked
      ∧ (ClearIrqSource m src).state.ReadRightChannel = m.state.ReadRightChannel := by
  unfold ClearIrqSource
  split
  · rw [UpdateIrqState_state]
    exact ⟨rfl, rfl, rfl⟩
  · exact ⟨rfl, rfl, rfl⟩

/-- Holding given values in the three fields other than ActiveIrqs is a stable
property. -/
theorem rest_stable (e : Nat) (b r : Bool) :
    StableUnder (fun _ => True) (fun n : PceCdRom W =>
      n.state.EnabledIrqs = e ∧ n.state.BramLocked = b ∧ n.state.ReadRightChannel = r) := by
  refine ⟨?_, ?_, ?_⟩
  · intro m src _ h
    have hs := SetIrqSource_rest m src
    exact ⟨hs.1.trans h.1, hs.2.1.trans h.2.1, hs.2.2.trans h.2.2⟩
  · intro m src _ h
    have hs := ClearIrqSource_rest m src
    exact ⟨hs.1.trans h.1, hs.2.1.trans h.2.1, hs.2.2.trans h.2.2⟩
  · intro m n hs _ h
    rw [← hs]
    exact h

theorem scsiSetSignalValue_rest (P : Collaborators W) (m : PceCdRom W) (sig : ScsiSignal)
    (val : Bool) :
    (scsiSetSignalValue P m sig val).state.EnabledIrqs = m.state.EnabledIrqs
      ∧ (scsiSetSignalValue P m sig val).state.BramLocked = m.state.BramLocked
      ∧ (scsiSetSignalValue P m sig val).state.ReadRightChannel = m.state.ReadRightChannel :=
  scsiSetSignalValue_stable (rest_stable _ _ _) P (reportsOnly_any P) m sig val ⟨rfl, rfl, rfl⟩

theorem scsiUpdateState_rest (P : Collaborators W) (m : PceCdRom W) :
    (scsiUpdateState P m).state.EnabledIrqs = m.state.EnabledIrqs
      ∧ (scsiUpdateState P m).state.BramLocked = m.state.BramLocked
      ∧ (scsiUpdateState P m).state.ReadRightChannel = m.state.ReadRightChannel :=
  scsiUpdateState_stable (rest_stable _ _ _) P (reportsOnly_any P) m ⟨rfl, rfl, rfl⟩

theorem scsiSetAckWithAutoClear_rest (P : Collaborators W) (m : PceCdRom W) :
    (scsiSetAckWithAutoClear P m).state.EnabledIrqs = m.state.EnabledIrqs
      ∧ (scsiSetAckWithAutoClear P m).state.BramLocked = m.state.BramLocked
      ∧ (scsiSetAckWithAutoClear P m).state.ReadRightChannel = m.state.ReadRightChannel :=
  scsiSetAckWithAutoClear_stable (rest_stable _ _ _) P (reportsOnly_any P) m ⟨rfl, rfl, rfl⟩

theorem scsiSetSignalValue_dev (P : Collaborators W) (m : PceCdRom W) (sig : ScsiSignal)
    (val : Bool) : (scsiSetSignalValue P m sig val).dev = (P.SetSignalValue m.dev sig val).1 :=
  reenter_dev _ _

theorem scsiUpdateState_dev (P : Collaborators W) (m : PceCdRom W) :
    (scsiUpdateState P m).dev = (P.UpdateState m.dev).1 :=
  reenter_dev _ _

theorem scsiSetAckWithAutoClear_dev (P : Collaborators W) (m : PceCdRom W) :
    (scsiSetAckWithAutoClear P m).dev = (P.SetAckWithAutoClear m.dev).1 :=
  reenter_dev _ _

theorem scsiSetSignalValue_log (P : Collaborators W) (m : PceCdRom W) (sig : ScsiSignal)
    (val : Bool) :
    (scsiSetSignalValue P m sig val).log = m.log ++ [Call.SetSignalValue sig val] :=
  rfl

theorem scsiUpdateState_log (P : Collaborators W) (m : PceCdRom W) :
    (scsiUpdateState P m).log = m.log ++ [Call.UpdateState] :=
  rfl

theorem scsiSetDataPort_log (P : Collaborators W) (m : PceCdRom W) (value : Nat) :
    (scsiSetDataPort P m value).log = m.log ++ [Call.SetDataPort value] :=
  rfl

theorem scsiSetAckWithAutoClear_log (P : Collaborators W) (m : PceCdRom W) :
    (scsiSetAckWithAutoClear P m).log = m.log ++ [Call.SetAckWithAutoClear] :=
  rfl

theorem adpcmWrite_log (P : Collaborators W) (m : PceCdRom W) (addr value : Nat) :
    (adpcmWrite P m addr value).log = m.log ++ [Call.AdpcmWrite addr value] :=
  rfl

theorem adpcmRead_log (P : Collaborators W) (m : PceCdRom W) (addr : Nat) :
    (adpcmRead P m addr).2.log = m.log ++ [Call.AdpcmRead addr] :=
  rfl

theorem faderWrite_log (P : Collaborators W) (m : PceCdRom W) (value : Nat) :
    (faderWrite P m value).log = m.log ++ [Call.FaderWrite value] :=
  rfl

theorem emit_log (m : PceCdRom W) (c : Call) : (emit m c).log = m.log ++ [c] :=
  rfl

end PceCdRom

/-! ## Claims on the register dispatcher -/

namespace PceCdRom

variable {W : Type}

/-- C3 (as the claim states it, refuted): on a bus whose update releases the acknowledge
line, writing 0xFF to offset 0x02 and reading offset 0x02 returns 0x7C, while the claim
gives 0xFC. -/
theorem C3_write_then_read_counterexample :
    (Read toyDropAck (Write toyDropAck (toyMachine 0 0) 0x02 0xFF) 0x02).1 = 0x7C
      ∧ ((0xFF &&& 0x7C) ||| (if (0xFF &&& 0x80) ≠ 0 then 0x80 else 0)) = 0xFC := by
  constructor <;> decide

/-- C3 (amended): writing `value` to offset 0x02 leaves `value & 0x7C` in EnabledIrqs, and
a following read of offset 0x02 returns `(value & 0x7C) | ack_bit`, where `ack_bit` is 0x80
exactly when the bus reports the acknowledge line after the write (after its
SetSignalValue(Ack, bit 7 of value) and UpdateState); on every bus that keeps a line it
was just given across the update, `ack_bit` is 0x80 exactly when bit 7 of `value` is set. -/
theorem C3_write_then_read_enable_register (P : Collaborators W) (m : PceCdRom W)
    (value : Nat) :
    (Write P m 0x02 value).state.EnabledIrqs = value &&& 0x7C
      ∧ (Read P (Write P m 0x02 value) 0x02).1 =
        ((value &&& 0x7C) ||| (if P.CheckSignal (P.UpdateState
          (P.SetSignalValue m.dev ScsiSignal.Ack (decide ((value &&& 0x80) ≠ 0))).1).1
            ScsiSignal.Ack then 0x80 else 0))
      ∧ ((∀ w b, P.CheckSignal (P.UpdateState (P.SetSignalValue w ScsiSignal.Ack b).1).1
            ScsiSignal.Ack = b) →
          (Read P (Write P m 0x02 value) 0x02).1 =
            ((value &&& 0x7C) ||| (if (value &&& 0x80) ≠ 0 then 0x80 else 0))) := by
  have hE : (Write P m 0x02 value).state.EnabledIrqs = value &&& 0x7C := by
    rw [Write_off02 P m 0x02 value (by decide), UpdateIrqState_state]
  have hD : (Write P m 0x02 value).dev = (P.UpdateState
      (P.SetSignalValue m.dev ScsiSignal.Ack (decide ((value &&& 0x80) ≠ 0))).1).1 := by
    rw [Write_off02 P m 0x02 value (by decide), UpdateIrqState_dev]
    show (scsiUpdateState P _).dev = _
    rw [scsiUpdateState_dev, scsiSetSignalValue_dev]
  have key : (Read P (Write P m 0x02 value) 0x02).1 =
      ((value &&& 0x7C) ||| (if P.CheckSignal (P.UpdateState
        (P.SetSignalValue m.dev ScsiSignal.Ack (decide ((value &&& 0x80) ≠ 0))).1).1
          ScsiSignal.Ack then 0x80 else 0)) := by
    rw [Read_off02 P _ 0x02 (by decide)]
    show (Write P m 0x02 value).state.EnabledIrqs
      ||| (if P.CheckSignal (Write P m 0x02 value).dev ScsiSignal.Ack then 0x80 else 0) = _
    rw [hE, hD]
  refine ⟨hE, key, ?_⟩
  intro hlatch
  rw [key, hlatch]
  simp

/-- C3 witness: on the example bus, which keeps its lines, writing 0xFF reads back
0xFC. -/
theorem C3_write_then_read_enable_register_witness :
    (Read toy (Write toy (toyMachine 0 0) 0x02 0xFF) 0x02).1
      = ((0xFF &&& 0x7C) ||| (if (0xFF &&& 0x80) ≠ 0 then 0x80 else 0)) :=
  (C3_write_then_read_enable_register toy (toyMachine 0 0) 0xFF).2.2
    (by intro w b; simp [toy])

end PceCdRom

namespace PceCdRom

variable {W : Type}

/-- C5: a write to offset 0x04 with bit 1 of the value set leaves `e & 0x8F` in
EnabledIrqs, so bits 4, 5 and 6 are clear and bits 0, 1, 2, 3 and 7 keep their value; a
write with bit 1 clear leaves EnabledIrqs unchanged. -/
theorem C5_reset_clears_drive_enables (P : Collaborators W) (m : PceCdRom W) (value : Nat) :
    ((value &&& 0x02) ≠ 0 →
        (Write P m 0x04 value).state.EnabledIrqs = m.state.EnabledIrqs &&& 0x8F
          ∧ (∀ k, k = 4 ∨ k = 5 ∨ k = 6 →
              (Write P m 0x04 value).state.EnabledIrqs.testBit k = false)
          ∧ (∀ k, k = 0 ∨ k = 1 ∨ k = 2 ∨ k = 3 ∨ k = 7 →
              (Write P m 0x04 value).state.EnabledIrqs.testBit k
                = m.state.EnabledIrqs.testBit k))
      ∧ ((value &&& 0x02) = 0 →
          (Write P m 0x04 value).state.EnabledIrqs = m.state.EnabledIrqs) := by
  constructor
  · intro hv
    have hE : (Write P m 0x04 value).state.EnabledIrqs = m.state.EnabledIrqs &&& 0x8F := by
      rw [Write_off04_reset P m 0x04 value (by decide) hv, UpdateIrqState_state]
      show (scsiUpdateState P _).state.EnabledIrqs &&& 0x8F = _
      rw [(scsiUpdateState_rest P _).1, (scsiSetSignalValue_rest P m _ _).1]
    rw [hE]
    refine ⟨rfl, ?_, ?_⟩
    · intro k hk
      rw [Nat.testBit_and]
      rcases hk with rfl | rfl | rfl <;> simp <;> intro _ <;> decide
    · intro k hk
      rw [Nat.testBit_and]
      rcases hk with rfl | rfl | rfl | rfl | rfl <;> simp <;> intro _ <;> decide
  · intro hv
    rw [Write_off04_idle P m 0x04 value (by decide) hv, (scsiUpdateState_rest P _).1,
      (scsiSetSignalValue_rest P m _ _).1]

/-- C5 witness: writing 0x02 to offset 0x04 with 0x7C enabled leaves 0x0C. -/
theorem C5_reset_clears_drive_enables_witness :
    (Write toy (toyMachine 0 0x7C) 0x04 0x02).state.EnabledIrqs = 0x7C &&& 0x8F :=
  ((C5_reset_clears_drive_enables toy (toyMachine 0 0x7C) 0x02).1 (by decide)).1

theorem or_and_self_right (a x : Nat) : (a ||| x) &&& x = x := by
  apply Nat.eq_of_testBit_eq
  intro i
  simp only [Nat.testBit_and, Nat.testBit_or]
  cases a.testBit i <;> cases x.testBit i <;> rfl

theorem toUInt8_ne_zero (src : PceCdRomIrqSource) : src.toUInt8 ≠ 0 := by
  unfold PceCdRomIrqSource.toUInt8
  exact Nat.pos_iff_ne_zero.mp (Nat.two_pow_pos _)

theorem UpdateIrqState_log (m : PceCdRom W) :
    (UpdateIrqState m).log = m.log ++
      [if (m.state.EnabledIrqs &&& m.state.ActiveIrqs) ≠ 0 then Call.MemSetIrqSource
       else Call.MemClearIrqSource] := by
  unfold UpdateIrqState
  split <;> simp_all [memSetIrqSource, memClearIrqSource]

theorem irqUpdates_singleton_line (b : Prop) [Decidable b] :
    irqUpdates [if b then Call.MemSetIrqSource else Call.MemClearIrqSource] = 1 := by
  by_cases h : b <;> simp [irqUpdates, h]

theorem SetIrqSource_of_active (m : PceCdRom W) (src : PceCdRomIrqSource)
    (h : (m.state.ActiveIrqs &&& src.toUInt8) ≠ 0) : SetIrqSource m src = m := by
  unfold SetIrqSource
  rw [if_neg h]

theorem SetIrqSource_of_inactive (m : PceCdRom W) (src : PceCdRomIrqSource)
    (h : (m.state.ActiveIrqs &&& src.toUInt8) = 0) :
    SetIrqSource m src = UpdateIrqState
      { m with state := { m.state with ActiveIrqs := m.state.ActiveIrqs ||| src.toUInt8 } } := by
  unfold SetIrqSource
  rw [if_pos h]

/-- The second of two equal assertions finds the source active and does nothing. -/
theorem SetIrqSource_twice (m : PceCdRom W) (src : PceCdRomIrqSource) :
    SetIrqSource (SetIrqSource m src) src = SetIrqSource m src := by
  by_cases h : (m.state.ActiveIrqs &&& src.toUInt8) = 0
  · apply SetIrqSource_of_active
    rw [SetIrqSource_of_inactive m src h, UpdateIrqState_state]
    show (m.state.ActiveIrqs ||| src.toUInt8) &&& src.toUInt8 ≠ 0
    rw [or_and_self_right]
    exact toUInt8_ne_zero src
  · rw [SetIrqSource_of_active m src h, SetIrqSource_of_active m src h]

/-- C6 (as the claim states it, refuted): when the source is already active, two
successive assertions recompute the interrupt line zero times, not once. -/
theorem C6_set_twice_counterexample :
    irqUpdates (issued (toyMachine 0x04 0)
      (SetIrqSource (SetIrqSource (toyMachine 0x04 0) { bit := 2 }) { bit := 2 })) = 0 := by
  decide

/-- C6 (amended): two successive assertions of the same source recompute the interrupt
line exactly once when the source was not active before and not at all when it already
was; the second assertion never recomputes. -/
theorem C6_set_twice_recomputes_at_most_once (m : PceCdRom W) (src : PceCdRomIrqSource) :
    irqUpdates (issued m (SetIrqSource (SetIrqSource m src) src))
        = (if (m.state.ActiveIrqs &&& src.toUInt8) = 0 then 1 else 0)
      ∧ irqUpdates (issued (SetIrqSource m src) (SetIrqSource (SetIrqSource m src) src)) = 0 := by
  rw [SetIrqSource_twice]
  constructor
  · by_cases h : (m.state.ActiveIrqs &&& src.toUInt8) = 0
    · rw [if_pos h]
      have hl : (SetIrqSource m src).log = m.log ++
          [if (m.state.EnabledIrqs &&& (m.state.ActiveIrqs ||| src.toUInt8)) ≠ 0
            then Call.MemSetIrqSource else Call.MemClearIrqSource] := by
        rw [SetIrqSource_of_inactive m src h]
        exact UpdateIrqState_log _
      rw [issued_of_log hl]
      exact irqUpdates_singleton_line _
    · rw [if_neg h]
      rw [SetIrqSource_of_active m src h]
      simp [issued, irqUpdates]
  · simp [issued, irqUpdates]

end PceCdRom

namespace PceCdRom

variable {W : Type}

theorem and_3FF_and_3 (a : Nat) : (a &&& 0x3FF) &&& 0x03 = a &&& 0x03 := by
  rw [Nat.and_assoc]
  rfl

theorem and_3FF_idem (a : Nat) : (a &&& 0x3FF) &&& 0x3FF = a &&& 0x3FF := by
  rw [Nat.and_assoc, Nat.and_self]

/-- C7: for every address whose low 10 bits are 0xC0 to 0xC3, Read returns 0xFF when
the configured unit is the base CD-ROM, and otherwise the bytes 0x00, 0xAA, 0x55, 0x03
respectively (the signature indexed by the low 2 address bits); ControllerState is
unchanged in both cases. -/
theorem C7_signature_window (P : Collaborators W) (m : PceCdRom W) (addr : Nat)
    (hlo : 0xC0 ≤ addr &&& 0x3FF) (hhi : addr &&& 0x3FF ≤ 0xC3) :
    (P.CdRomType m.dev = PceCdRomType.CdRom → (Read P m addr).1 = 0xFF)
      ∧ (P.CdRomType m.dev ≠ PceCdRomType.CdRom →
          (Read P m addr).1 = superCdRomSignature.getD (addr &&& 0x03) 0
            ∧ (addr &&& 0x3FF = 0xC0 → (Read P m addr).1 = 0x00)
            ∧ (addr &&& 0x3FF = 0xC1 → (Read P m addr).1 = 0xAA)
            ∧ (addr &&& 0x3FF = 0xC2 → (Read P m addr).1 = 0x55)
            ∧ (addr &&& 0x3FF = 0xC3 → (Read P m addr).1 = 0x03))
      ∧ (Read P m addr).2.state = m.state := by
  have h3 : ∀ k, addr &&& 0x3FF = k → addr &&& 0x03 = k &&& 0x03 := by
    intro k hk
    rw [← and_3FF_and_3, hk]
  apply Read_elim (motive := fun r =>
      (P.CdRomType m.dev = PceCdRomType.CdRom → r.1 = 0xFF)
      ∧ (P.CdRomType m.dev ≠ PceCdRomType.CdRom →
          r.1 = superCdRomSignature.getD (addr &&& 0x03) 0
            ∧ (addr &&& 0x3FF = 0xC0 → r.1 = 0x00)
            ∧ (addr &&& 0x3FF = 0xC1 → r.1 = 0xAA)
            ∧ (addr &&& 0x3FF = 0xC2 → r.1 = 0x55)
            ∧ (addr &&& 0x3FF = 0xC3 → r.1 = 0x03))
      ∧ r.2.state = m.state) P m addr
  case cCa =>
    intro _ _ ht
    exact ⟨fun _ => rfl, fun hne => absurd ht hne, rfl⟩
  case cCb =>
    intro _ _ ht
    refine ⟨fun h => absurd h ht, fun _ => ⟨rfl, ?_, ?_, ?_, ?_⟩, rfl⟩
    all_goals
      intro hk
      show superCdRomSignature.getD (addr &&& 0x03) 0 = _
      rw [h3 _ hk]
      rfl
  all_goals
    intros
    omega

/-- C7 witness: on the enhanced example unit, address 0x4C1 reads the second signature
byte. -/
theorem C7_signature_window_witness : (Read toy (toyMachine 0 0) 0x4C1).1 = 0xAA :=
  ((C7_signature_window toy (toyMachine 0 0) 0x4C1 (by decide) (by decide)).2.1
    (by decide)).2.2.1 (by decide)

/-- C8: from every state, writing 0x80 to offset 0x07 and then reading offset 0x07
returns 0x80; a following read of offset 0x03 sets BramLocked, and the next read of offset
0x07 returns 0.  Reading offset 0x07 returns 0x80 exactly when BramLocked is false and 0
otherwise, and writing `v` to offset 0x07 clears BramLocked exactly when bit 7 of `v` is set
and leaves it unchanged otherwise. -/
theorem C8_bram_lock_sequence (P : Collaborators W) (m : PceCdRom W) (v : Nat) :
    (Read P (Write P m 0x07 0x80) 0x07).1 = 0x80
      ∧ (Read P (Read P (Read P (Write P m 0x07 0x80) 0x07).2 0x03).2 0x07).1 = 0x00
      ∧ (Read P m 0x03).2.state.BramLocked = true
      ∧ (Read P m 0x07).1 = (if m.state.BramLocked = false then 0x80 else 0)
      ∧ (Read P m 0x07).2 = m
      ∧ (Write P m 0x07 v).state.BramLocked
          = (if (v &&& 0x80) ≠ 0 then false else m.state.BramLocked) := by
  have r7 : ∀ n : PceCdRom W, Read P n 0x07 = ((if n.state.BramLocked then 0 else 0x80), n) :=
    fun n => Read_off07 P n 0x07 (by decide)
  have r3 : ∀ n : PceCdRom W, (Read P n 0x03).2.state.BramLocked = true := by
    intro n
    rw [Read_off03 P n 0x03 (by decide)]
  have w7 : ∀ x, Write P m 0x07 x =
      if (x &&& 0x80) ≠ 0 then { m with state := { m.state with BramLocked := false } }
      else m := fun x => Write_off07 P m 0x07 x (by decide)
  refine ⟨?_, ?_, r3 m, ?_, ?_, ?_⟩
  · rw [r7, w7]
    simp
  · rw [r7, r3]
    rfl
  · rw [r7]
    cases m.state.BramLocked <;> rfl
  · rw [r7]
  · rw [w7]
    by_cases hv : (v &&& 0x80) = 0
    · simp [hv]
    · simp [hv]

/-- C9: a read of offset 0x08 returns the data-port byte sampled before any handshake.
When the bus reports Req and Io asserted and Cd deasserted, it then issues exactly one
SetAckWithAutoClear followed by exactly one UpdateState; for each of the other seven
combinations it issues neither, leaves the collaborators untouched, receives no call back
and leaves ControllerState unchanged.  EnabledIrqs, BramLocked and ReadRightChannel are
unchanged in every case. -/
theorem C9_auto_acknowledge (P : Collaborators W) (m : PceCdRom W) :
    (Read P m 0x08).1 = P.GetDataPort m.dev
      ∧ ((Read P m 0x08).2.state.EnabledIrqs = m.state.EnabledIrqs
          ∧ (Read P m 0x08).2.state.BramLocked = m.state.BramLocked
          ∧ (Read P m 0x08).2.state.ReadRightChannel = m.state.ReadRightChannel)
      ∧ (issued m (Read P m 0x08).2).count Call.SetAckWithAutoClear
          = (if (P.CheckSignal m.dev ScsiSignal.Req && P.CheckSignal m.dev ScsiSignal.Io
                && !P.CheckSignal m.dev ScsiSignal.Cd) = true then 1 else 0)
      ∧ (issued m (Read P m 0x08).2).count Call.UpdateState
          = (if (P.CheckSignal m.dev ScsiSignal.Req && P.CheckSignal m.dev ScsiSignal.Io
                && !P.CheckSignal m.dev ScsiSignal.Cd) = true then 1 else 0)
      ∧ (Read P m 0x08).2.dev
          = (if (P.CheckSignal m.dev ScsiSignal.Req && P.CheckSignal m.dev ScsiSignal.Io
                && !P.CheckSignal m.dev ScsiSignal.Cd) = true
              then (P.UpdateState (P.SetAckWithAutoClear m.dev).1).1 else m.dev)
      ∧ ((P.CheckSignal m.dev ScsiSignal.Req && P.CheckSignal m.dev ScsiSignal.Io
                && !P.CheckSignal m.dev ScsiSignal.Cd) = true →
          issued m (Read P m 0x08).2 =
            [Call.GetDataPort, Call.CheckSignal ScsiSignal.Req, Call.CheckSignal ScsiSignal.Io,
              Call.CheckSignal ScsiSignal.Cd, Call.SetAckWithAutoClear, Call.UpdateState])
      ∧ ((P.CheckSignal m.dev ScsiSignal.Req && P.CheckSignal m.dev ScsiSignal.Io
                && !P.CheckSignal m.dev ScsiSignal.Cd) = false →
          (Read P m 0x08).2.state = m.state ∧ received m (Read P m 0x08).2 = []) := by
  have h8 : (0x08 : Nat) &&& 0x3FF = 0x08 := by decide
  apply Read_elim (motive := fun r =>
    r.1 = P.GetDataPort m.dev
      ∧ (r.2.state.EnabledIrqs = m.state.EnabledIrqs
          ∧ r.2.state.BramLocked = m.state.BramLocked
          ∧ r.2.state.ReadRightChannel = m.state.ReadRightChannel)
      ∧ (issued m r.2).count Call.SetAckWithAutoClear
          = (if (P.CheckSignal m.dev ScsiSignal.Req && P.CheckSignal m.dev ScsiSignal.Io
                && !P.CheckSignal m.dev ScsiSignal.Cd) = true then 1 else 0)
      ∧ (issued m r.2).count Call.UpdateState
          = (if (P.CheckSignal m.dev ScsiSignal.Req && P.CheckSignal m.dev ScsiSignal.Io
                && !P.CheckSignal m.dev ScsiSignal.Cd) = true then 1 else 0)
      ∧ r.2.dev
          = (if (P.CheckSignal m.dev ScsiSignal.Req && P.CheckSignal m.dev ScsiSignal.Io
                && !P.CheckSignal m.dev ScsiSignal.Cd) = true
              then (P.UpdateState (P.SetAckWithAutoClear m.dev).1).1 else m.dev)
      ∧ ((P.CheckSignal m.dev ScsiSignal.Req && P.CheckSignal m.dev ScsiSignal.Io
                && !P.CheckSignal m.dev ScsiSignal.Cd) = true →
          issued m r.2 =
            [Call.GetDataPort, Call.CheckSignal ScsiSignal.Req, Call.CheckSignal ScsiSignal.Io,
              Call.CheckSignal ScsiSignal.Cd, Call.SetAckWithAutoClear, Call.UpdateState])
      ∧ ((P.CheckSignal m.dev ScsiSignal.Req && P.CheckSignal m.dev ScsiSignal.Io
                && !P.CheckSignal m.dev ScsiSignal.Cd) = false →
          r.2.state = m.state ∧ received m r.2 = []))
    P m 0x08
  case c8a =>
    intro _ hreq hio hcd
    have hl : (scsiUpdateState P (scsiSetAckWithAutoClear P
        (emit (emit (emit (emit m Call.GetDataPort) (Call.CheckSignal ScsiSignal.Req))
          (Call.CheckSignal ScsiSignal.Io)) (Call.CheckSignal ScsiSignal.Cd)))).log
        = m.log ++ [Call.GetDataPort, Call.CheckSignal ScsiSignal.Req,
            Call.CheckSignal ScsiSignal.Io, Call.CheckSignal ScsiSignal.Cd,
            Call.SetAckWithAutoClear, Call.UpdateState] := by
      simp [scsiUpdateState_log, scsiSetAckWithAutoClear_log, emit_log]
    have hr := (scsiUpdateState_rest P (scsiSetAckWithAutoClear P
        (emit (emit (emit (emit m Call.GetDataPort) (Call.CheckSignal ScsiSignal.Req))
          (Call.CheckSignal ScsiSignal.Io)) (Call.CheckSignal ScsiSignal.Cd))))
    have hs := (scsiSetAckWithAutoClear_rest P
        (emit (emit (emit (emit m Call.GetDataPort) (Call.CheckSignal ScsiSignal.Req))
          (Call.CheckSignal ScsiSignal.Io)) (Call.CheckSignal ScsiSignal.Cd)))
    refine ⟨rfl, ⟨hr.1.trans hs.1, hr.2.1.trans hs.2.1, hr.2.2.trans hs.2.2⟩,
      ?_, ?_, ?_, ?_, ?_⟩
    · simp only [issued_of_log hl, hreq, hio, hcd]
      decide
    · simp only [issued_of_log hl, hreq, hio, hcd]
      decide
    · simp only [hreq, hio, hcd]
      show (scsiUpdateState P _).dev = _
      rw [scsiUpdateState_dev, scsiSetAckWithAutoClear_dev]
      rfl
    · intro _
      exact issued_of_log hl
    · intro h
      simp [hreq, hio, hcd] at h
  case c8b =>
    intro _ hreq hio hcd
    simp [hreq, hio, hcd, issued, received, emit]
  case c8c =>
    intro _ hreq hio
    simp [hreq, hio, issued, received, emit]
  case c8d =>
    intro _ hreq
    simp [hreq, issued, received, emit]
  all_goals
    intros
    omega

/-- C9 witness: on the example bus in the data-input phase the full call sequence is
issued. -/
theorem C9_auto_acknowledge_witness :
    issued
        ({ toyMachine 0 0 with dev := { toyWorld with
            lines := fun s => decide (s = ScsiSignal.Req ∨ s = ScsiSignal.Io) } })
        (Read toy ({ toyMachine 0 0 with dev := { toyWorld with
            lines := fun s => decide (s = ScsiSignal.Req ∨ s = ScsiSignal.Io) } }) 0x08).2
      = [Call.GetDataPort, Call.CheckSignal ScsiSignal.Req, Call.CheckSignal ScsiSignal.Io,
          Call.CheckSignal ScsiSignal.Cd, Call.SetAckWithAutoClear, Call.UpdateState] :=
  (C9_auto_acknowledge toy ({ toyMachine 0 0 with dev := { toyWorld with
      lines := fun s => decide (s = ScsiSignal.Req ∨ s = ScsiSignal.Io) } })).2.2.2.2.2.1
    (by decide)

end PceCdRom

namespace PceCdRom

variable {W : Type}

/-- C10 (as the claim states it, refuted): a write to 0x0408 hands the ADPCM delegate the
address 0x0408, a write to the masked address 0x0008 hands it 0x0008; likewise for reads
at 0x0409 and 0x0009. -/
theorem C10_masking_counterexample :
    issued (toyMachine 0 0) (Write toy (toyMachine 0 0) 0x0408 0x11)
        = [Call.AdpcmWrite 0x0408 0x11]
      ∧ issued (toyMachine 0 0) (Write toy (toyMachine 0 0) (0x0408 &&& 0x3FF) 0x11)
        = [Call.AdpcmWrite 0x0008 0x11]
      ∧ issued (toyMachine 0 0) (Read toy (toyMachine 0 0) 0x0409).2
        = [Call.AdpcmRead 0x0409]
      ∧ issued (toyMachine 0 0) (Read toy (toyMachine 0 0) (0x0409 &&& 0x3FF)).2
        = [Call.AdpcmRead 0x0009] := by
  refine ⟨?_, ?_, ?_, ?_⟩ <;> decide

/-- C10 (amended): the dispatch looks at the low 10 address bits only.  Outside the ADPCM
window (offsets 0x08 to 0x0E for writes, 0x09 to 0x0E for reads) an access at `a` and at
`a & 0x3FF` returns the same byte, produces the same state and issues the same calls (for
an unknown read offset, up to the address quoted in the diagnostic message); inside the
window the ADPCM delegate is handed the unmasked address `a`. -/
theorem C10_masking_outside_adpcm (P : Collaborators W) (m : PceCdRom W) (a v : Nat) :
    (¬ (0x08 ≤ a &&& 0x3FF ∧ a &&& 0x3FF ≤ 0x0E) →
        Write P m a v = Write P m (a &&& 0x3FF) v)
      ∧ (0x08 ≤ a &&& 0x3FF ∧ a &&& 0x3FF ≤ 0x0E →
        Write P m a v = adpcmWrite P m a v
          ∧ issued m (Write P m a v) = [Call.AdpcmWrite a v])
      ∧ (a &&& 0x3FF ≤ 0x08 ∨ (0xC0 ≤ a &&& 0x3FF ∧ a &&& 0x3FF ≤ 0xC3) →
        Read P m a = Read P m (a &&& 0x3FF))
      ∧ (0x09 ≤ a &&& 0x3FF ∧ a &&& 0x3FF ≤ 0x0E →
        Read P m a = adpcmRead P m a
          ∧ issued m (Read P m a).2 = [Call.AdpcmRead a])
      ∧ (0x0E < a &&& 0x3FF ∧ ¬ (0xC0 ≤ a &&& 0x3FF ∧ a &&& 0x3FF ≤ 0xC3) →
        Read P m a = (0xFF, emit m (Call.LogDebug a))
          ∧ Read P m (a &&& 0x3FF) = (0xFF, emit m (Call.LogDebug (a &&& 0x3FF)))) := by
  have hi := and_3FF_idem a
  have h3 := and_3FF_and_3 a
  refine ⟨?_, ?_, ?_, ?_, ?_⟩
  · intro hn
    apply Write_elim (motive := fun r => r = Write P m (a &&& 0x3FF) v) P m a v <;> intros <;>
      apply Write_elim (motive := fun r => _ = r) P m (a &&& 0x3FF) v <;> intros <;>
        first | rfl | omega
  · intro hn
    have e : Write P m a v = adpcmWrite P m a v := by
      apply Write_elim (motive := fun r => r = _) P m a v <;> intros <;> first | rfl | omega
    rw [e]
    exact ⟨rfl, issued_of_log (adpcmWrite_log P m a v)⟩
  · intro hn
    apply Read_elim (motive := fun r => r = Read P m (a &&& 0x3FF)) P m a <;> intros <;>
      apply Read_elim (motive := fun r => _ = r) P m (a &&& 0x3FF) <;> intros <;>
        first | rfl | omega | contradiction | (rw [h3]) | simp_all
  · intro hn
    have e : Read P m a = adpcmRead P m a := by
      apply Read_elim (motive := fun r => r = _) P m a <;> intros <;> first | rfl | omega
    rw [e]
    exact ⟨rfl, issued_of_log (adpcmRead_log P m a)⟩
  · intro hn
    constructor
    · apply Read_elim (motive := fun r => r = _) P m a <;> intros <;> first | rfl | omega
    · apply Read_elim (motive := fun r => r = _) P m (a &&& 0x3FF) <;> intros <;>
        first | rfl | omega

/-- C10 witness: a write to 0x0402 acts as a write to 0x0002. -/
theorem C10_masking_outside_adpcm_witness :
    Write toy (toyMachine 0 0) 0x0402 0xFF = Write toy (toyMachine 0 0) (0x0402 &&& 0x3FF) 0xFF :=
  (C10_masking_outside_adpcm toy (toyMachine 0 0) 0x0402 0xFF).1 (by decide)

end PceCdRom

namespace PceCdRom

variable {W : Type}

/-- C11: for every address whose low 10 bits are neither in 0x00..0x0E nor in 0xC0..0xC3
(offset 0x0F included), Read returns 0xFF, changes no field of ControllerState, leaves the
interrupt line and the collaborators as they were and issues no call other than the
diagnostic message; for every address whose low 10 bits are above 0x0F, Write changes
nothing at all.  Both are total functions of the address. -/
theorem C11_unknown_offsets (P : Collaborators W) (m : PceCdRom W) (addr value : Nat) :
    (0x0E < addr &&& 0x3FF → ¬ (0xC0 ≤ addr &&& 0x3FF ∧ addr &&& 0x3FF ≤ 0xC3) →
        (Read P m addr).1 = 0xFF
          ∧ (Read P m addr).2.state = m.state
          ∧ (Read P m addr).2.dev = m.dev
          ∧ (Read P m addr).2.irq2 = m.irq2
          ∧ issued m (Read P m addr).2 = [Call.LogDebug addr])
      ∧ (0x0F < addr &&& 0x3FF →
          Write P m addr value = m ∧ issued m (Write P m addr value) = []) := by
  constructor
  · intro h1 h2
    have e : Read P m addr = (0xFF, emit m (Call.LogDebug addr)) := by
      apply Read_elim (motive := fun r => r = _) P m addr <;> intros <;> first | rfl | omega
    rw [e]
    refine ⟨rfl, rfl, rfl, rfl, ?_⟩
    simp [issued, emit]
  · intro h
    have e : Write P m addr value = m := by
      apply Write_elim (motive := fun r => r = m) P m addr value <;> intros <;>
        first | rfl | omega
    rw [e]
    exact ⟨rfl, by simp [issued]⟩

/-- C11 witness: offset 0x0F reads as 0xFF and offset 0x10 ignores a write. -/
theorem C11_unknown_offsets_witness :
    ((Read toy (toyMachine 0x04 0x7C) 0x0F).1 = 0xFF
        ∧ (Read toy (toyMachine 0x04 0x7C) 0x0F).2.state = (toyMachine 0x04 0x7C).state
        ∧ (Read toy (toyMachine 0x04 0x7C) 0x0F).2.dev = (toyMachine 0x04 0x7C).dev
        ∧ (Read toy (toyMachine 0x04 0x7C) 0x0F).2.irq2 = (toyMachine 0x04 0x7C).irq2
        ∧ issued (toyMachine 0x04 0x7C) (Read toy (toyMachine 0x04 0x7C) 0x0F).2
            = [Call.LogDebug 0x0F])
      ∧ (Write toy (toyMachine 0x04 0x7C) 0x10 0xFF = toyMachine 0x04 0x7C
        ∧ issued (toyMachine 0x04 0x7C) (Write toy (toyMachine 0x04 0x7C) 0x10 0xFF) = []) :=
  ⟨(C11_unknown_offsets toy (toyMachine 0x04 0x7C) 0x0F 0).1 (by decide) (by decide),
   (C11_unknown_offsets toy (toyMachine 0x04 0x7C) 0x10 0xFF).2 (by decide)⟩

/-- C12: a freshly constructed controller has ActiveIrqs = 0, EnabledIrqs = 0,
ReadRightChannel = false and BramLocked = true, so a first read of offset 0x07 returns 0
and a first read of offset 0x02 returns just the acknowledge bit. -/
theorem C12_power_on_state (P : Collaborators W) (dev : W) :
    (powerOn dev).state.ActiveIrqs = 0
      ∧ (powerOn dev).state.EnabledIrqs = 0
      ∧ (powerOn dev).state.ReadRightChannel = false
      ∧ (powerOn dev).state.BramLocked = true
      ∧ (Read P (powerOn dev) 0x07).1 = 0x00
      ∧ (Read P (powerOn dev) 0x02).1
          = (if P.CheckSignal dev ScsiSignal.Ack then 0x80 else 0) := by
  refine ⟨rfl, rfl, rfl, rfl, ?_, ?_⟩
  · rw [Read_off07 P _ 0x07 (by decide)]
    rfl
  · rw [Read_off02 P _ 0x02 (by decide)]
    show (0 ||| (if P.CheckSignal dev ScsiSignal.Ack then 0x80 else 0)) = _
    rw [Nat.zero_or]

/-- C13: ReadRightChannel is changed only by a read at offset 0x03: every Write, every
Read at another offset (the sample reads at 0x05 and 0x06 among them) and every
SetIrqSource and ClearIrqSource leaves it unchanged, and every Read at offset 0x03 negates
it. -/
theorem C13_flip_flop_frame (P : Collaborators W) (m : PceCdRom W) (addr value : Nat)
    (src : PceCdRomIrqSource) :
    (Write P m addr value).state.ReadRightChannel = m.state.ReadRightChannel
      ∧ (addr &&& 0x3FF ≠ 0x03 →
          (Read P m addr).2.state.ReadRightChannel = m.state.ReadRightChannel)
      ∧ (addr &&& 0x3FF = 0x03 →
          (Read P m addr).2.state.ReadRightChannel = !m.state.ReadRightChannel)
      ∧ (SetIrqSource m src).state.ReadRightChannel = m.state.ReadRightChannel
      ∧ (ClearIrqSource m src).state.ReadRightChannel = m.state.ReadRightChannel := by
  have hS : StableUnder (fun _ => True)
      (fun n : PceCdRom W => n.state.ReadRightChannel = m.state.ReadRightChannel) := by
    refine ⟨fun n s _ h => (SetIrqSource_rest n s).2.2.trans h,
      fun n s _ h => (ClearIrqSource_rest n s).2.2.trans h, ?_⟩
    intro n k hs _ h
    rw [← hs]
    exact h
  refine ⟨?_, ?_, ?_, ?_, ?_⟩
  · apply Write_stable hS P (reportsOnly_any P) m addr value ?_ ?_ ?_ rfl
    · intro n hn
      rw [UpdateIrqState_state]
      exact hn
    · intro n hn
      rw [UpdateIrqState_state]
      exact hn
    · intro n hn
      exact hn
  · intro hne
    have hemit : ∀ (n : PceCdRom W) (c : Call),
        n.state.ReadRightChannel = m.state.ReadRightChannel →
        (emit n c).state.ReadRightChannel = m.state.ReadRightChannel := fun _ _ hn => hn
    apply Read_elim (motive := fun r => r.2.state.ReadRightChannel = m.state.ReadRightChannel)
      P m addr
    case c3 =>
      intro h3
      exact absurd h3 hne
    case c5 =>
      intro _
      show (selectedSample P m).2.state.ReadRightChannel = _
      rw [selectedSample_snd]
      rfl
    case c6 =>
      intro _
      show (selectedSample P m).2.state.ReadRightChannel = _
      rw [selectedSample_snd]
      rfl
    case c8a =>
      intro _ _ _ _
      exact scsiUpdateState_stable hS P (reportsOnly_any P) _
        (scsiSetAckWithAutoClear_stable hS P (reportsOnly_any P) _ rfl)
    case c9 =>
      intro _ _
      exact adpcmRead_stable hS P (reportsOnly_any P) _ _ rfl
    all_goals
      intros
      rfl
  · intro h3
    rw [Read_off03 P m addr h3]
  · exact (SetIrqSource_rest m src).2.2
  · exact (ClearIrqSource_rest m src).2.2

/-- C13 witness: a sample read keeps the flip-flop, a status read negates it. -/
theorem C13_flip_flop_frame_witness :
    (Read toy (toyMachine 0 0) 0x05).2.state.ReadRightChannel
        = (toyMachine 0 0).state.ReadRightChannel
      ∧ (Read toy (toyMachine 0 0) 0x03).2.state.ReadRightChannel
        = !(toyMachine 0 0).state.ReadRightChannel :=
  ⟨(C13_flip_flop_frame toy (toyMachine 0 0) 0x05 0 { bit := 2 }).2.1 (by decide),
   (C13_flip_flop_frame toy (toyMachine 0 0) 0x03 0 { bit := 2 }).2.2.1 (by decide)⟩

end PceCdRom

namespace PceCdRom

variable {W : Type}

theorem and_two_pow_eq_zero (a k : Nat) (h : a.testBit k = false) : a &&& 2 ^ k = 0 := by
  apply Nat.eq_of_testBit_eq
  intro i
  rw [Nat.testBit_and, Nat.testBit_two_pow, Nat.zero_testBit]
  by_cases hki : k = i
  · subst hki
    rw [h, Bool.false_and]
  · simp [hki]

theorem testBit_of_and_two_pow_ne_zero (a k : Nat) (h : a &&& 2 ^ k ≠ 0) :
    a.testBit k = true := by
  cases hb : a.testBit k
  · exact absurd (and_two_pow_eq_zero a k hb) h
  · rfl

theorem or_two_pow_of_testBit (a k : Nat) (h : a.testBit k = true) : a ||| 2 ^ k = a := by
  apply Nat.eq_of_testBit_eq
  intro i
  rw [Nat.testBit_or, Nat.testBit_two_pow]
  by_cases hki : k = i
  · subst hki
    rw [h, Bool.true_or]
  · simp [hki]

theorem testBit_of_lt_256 (a i : Nat) (ha : a < 256) (hi : a.testBit i = true) : i < 8 := by
  by_contra hge
  have h8 : 8 ≤ i := by omega
  have hpow : (2 : Nat) ^ 8 ≤ 2 ^ i := Nat.pow_le_pow_right (by decide) h8
  have hlt : a < 2 ^ i := by
    have : (2 : Nat) ^ 8 = 256 := by decide
    omega
  rw [Nat.testBit_lt_two_pow hlt] at hi
  exact Bool.noConfusion hi

theorem testBit_255 (i : Nat) : Nat.testBit 0xFF i = decide (i < 8) := by
  have h : (0xFF : Nat) = 2 ^ 8 - 1 := by decide
  rw [h, Nat.testBit_two_pow_sub_one]

theorem and_not_two_pow_of_clear (a k : Nat) (ha : a < 256) (h : a.testBit k = false) :
    a &&& (0xFF ^^^ 2 ^ k) = a := by
  apply Nat.eq_of_testBit_eq
  intro i
  rw [Nat.testBit_and, Nat.testBit_xor, testBit_255, Nat.testBit_two_pow]
  cases hb : a.testBit i
  · rfl
  · have hi : i < 8 := testBit_of_lt_256 a i ha hb
    have hki : k ≠ i := by
      intro e
      subst e
      rw [h] at hb
      exact Bool.noConfusion hb
    simp [hi, hki]

/-- C14: for every interrupt source and every byte ActiveIrqs = a, SetIrqSource leaves
`a | id` and ClearIrqSource leaves `a & ~id` in ActiveIrqs: the bit of the source is set,
respectively clear, every other bit keeps its value, and EnabledIrqs, BramLocked and
ReadRightChannel are unchanged. -/
theorem C14_set_and_clear_source (m : PceCdRom W) (id : PceCdRomIrqSource)
    (ha : m.state.ActiveIrqs < 256) :
    (SetIrqSource m id).state
        = { m.state with ActiveIrqs := m.state.ActiveIrqs ||| id.toUInt8 }
      ∧ (ClearIrqSource m id).state
        = { m.state with ActiveIrqs := m.state.ActiveIrqs &&& (0xFF ^^^ id.toUInt8) }
      ∧ (∀ k : Nat, k < 8 →
          (SetIrqSource m id).state.ActiveIrqs.testBit k
            = (m.state.ActiveIrqs.testBit k || decide (id.bit.val = k)))
      ∧ (∀ k : Nat, k < 8 →
          (ClearIrqSource m id).state.ActiveIrqs.testBit k
            = (m.state.ActiveIrqs.testBit k && !decide (id.bit.val = k))) := by
  have hset : (SetIrqSource m id).state
      = { m.state with ActiveIrqs := m.state.ActiveIrqs ||| id.toUInt8 } := by
    unfold SetIrqSource
    split
    · rw [UpdateIrqState_state]
    · next h =>
      have hb := testBit_of_and_two_pow_ne_zero m.state.ActiveIrqs id.bit.val h
      show m.state = { m.state with ActiveIrqs := m.state.ActiveIrqs ||| 2 ^ id.bit.val }
      rw [or_two_pow_of_testBit _ _ hb]
  have hclr : (ClearIrqSource m id).state
      = { m.state with ActiveIrqs := m.state.ActiveIrqs &&& (0xFF ^^^ id.toUInt8) } := by
    unfold ClearIrqSource
    split
    · rw [UpdateIrqState_state]
    · next h =>
      have hz : m.state.ActiveIrqs &&& 2 ^ id.bit.val = 0 := by
        by_contra hne
        exact h hne
      have hb : m.state.ActiveIrqs.testBit id.bit.val = false := by
        cases hb : m.state.ActiveIrqs.testBit id.bit.val
        · rfl
        · have := or_two_pow_of_testBit _ _ hb
          have h2 := or_and_self_right m.state.ActiveIrqs (2 ^ id.bit.val)
          rw [this, hz] at h2
          exact absurd h2.symm (Nat.pos_iff_ne_zero.mp (Nat.two_pow_pos _))
      show m.state = { m.state with
        ActiveIrqs := m.state.ActiveIrqs &&& (0xFF ^^^ 2 ^ id.bit.val) }
      rw [and_not_two_pow_of_clear _ _ ha hb]
  refine ⟨hset, hclr, ?_, ?_⟩
  · intro k _
    rw [hset]
    show (m.state.ActiveIrqs ||| 2 ^ id.bit.val).testBit k = _
    rw [Nat.testBit_or, Nat.testBit_two_pow]
  · intro k hk
    rw [hclr]
    show (m.state.ActiveIrqs &&& (0xFF ^^^ 2 ^ id.bit.val)).testBit k = _
    rw [Nat.testBit_and, Nat.testBit_xor, testBit_255, Nat.testBit_two_pow]
    simp [hk]

/-- C14 witness: asserting the source of bit 5 on the mask 0x04 gives 0x24. -/
theorem C14_set_and_clear_source_witness :
    (SetIrqSource (toyMachine 0x04 0) { bit := 5 }).state
      = { (toyMachine 0x04 0).state with
          ActiveIrqs := (toyMachine 0x04 0).state.ActiveIrqs
            ||| PceCdRomIrqSource.toUInt8 { bit := 5 } } :=
  (C14_set_and_clear_source (toyMachine 0x04 0) { bit := 5 } (by decide)).1

/-- C15: a read of offset 0x05 returns the low byte and a read of offset 0x06 the high
byte of the two's-complement encoding of the selected sample (right when
ReadRightChannel is set, else left), so low + 256 * high is the sample modulo 2^16, also
for negative samples; neither read changes ControllerState. -/
theorem C15_sample_bytes (P : Collaborators W) (m : PceCdRom W) :
    ((Read P m 0x05).1 : Int)
        = (if m.state.ReadRightChannel then P.GetRightSample m.dev
            else P.GetLeftSample m.dev) % 256
      ∧ ((Read P m 0x06).1 : Int)
        = ((if m.state.ReadRightChannel then P.GetRightSample m.dev
            else P.GetLeftSample m.dev) / 256) % 256
      ∧ ((Read P m 0x05).1 : Int) + 256 * ((Read P m 0x06).1 : Int)
        = (if m.state.ReadRightChannel then P.GetRightSample m.dev
            else P.GetLeftSample m.dev) % 65536
      ∧ (Read P m 0x05).1 < 256
      ∧ (Read P m 0x06).1 < 256
      ∧ (Read P m 0x05).2.state = m.state
      ∧ (Read P m 0x06).2.state = m.state := by
  rw [Read_off05 P m 0x05 (by decide), Read_off06 P m 0x06 (by decide), selectedSample_fst,
    selectedSample_snd]
  generalize (if m.state.ReadRightChannel = true then P.GetRightSample m.dev
    else P.GetLeftSample m.dev) = s
  have hlo : ((u8OfInt s : Nat) : Int) = s % 256 := by
    unfold u8OfInt
    exact Int.toNat_of_nonneg (Int.emod_nonneg _ (by decide))
  have hhi : ((u8OfInt (s >>> (8 : Nat)) : Nat) : Int) = (s / 256) % 256 := by
    unfold u8OfInt
    rw [Int.shiftRight_eq_div_pow]
    exact Int.toNat_of_nonneg (Int.emod_nonneg _ (by decide))
  refine ⟨hlo, hhi, ?_, ?_, ?_, rfl, rfl⟩
  · show ((u8OfInt s : Nat) : Int) + 256 * ((u8OfInt (s >>> (8 : Nat)) : Nat) : Int) = s % 65536
    rw [hlo, hhi]
    omega
  · show u8OfInt s < 256
    omega
  · show u8OfInt (s >>> (8 : Nat)) < 256
    omega

end PceCdRom

namespace PceCdRom

variable {W : Type}

theorem issued_UpdateIrqState_ordered (before m : PceCdRom W) (t : List Call)
    (h : m.log = before.log ++ t)
    (ht : updatedAfterEachChange (t ++ [Call.MemSetIrqSource]) = true
      ∧ updatedAfterEachChange (t ++ [Call.MemClearIrqSource]) = true) :
    updatedAfterEachChange (issued before (UpdateIrqState m)) = true := by
  have hl := UpdateIrqState_log m
  rw [h, List.append_assoc] at hl
  rw [issued_of_log hl]
  by_cases hc : (m.state.EnabledIrqs &&& m.state.ActiveIrqs) ≠ 0
  · rw [if_pos hc]; exact ht.1
  · rw [if_neg hc]; exact ht.2

/-- C16: in the calls issued by any single Write or Read, every SetSignalValue,
SetDataPort and SetAckWithAutoClear is immediately followed by UpdateState; a write to
offset 0x00 issues exactly SetSignalValue(Sel, true), UpdateState,
SetSignalValue(Sel, false), UpdateState, whatever the value. -/
theorem C16_update_follows_every_change (P : Collaborators W) (m : PceCdRom W)
    (addr value : Nat) :
    updatedAfterEachChange (issued m (Write P m addr value)) = true
      ∧ updatedAfterEachChange (issued m (Read P m addr).2) = true
      ∧ issued m (Write P m 0x00 value)
          = [Call.SetSignalValue ScsiSignal.Sel true, Call.UpdateState,
              Call.SetSignalValue ScsiSignal.Sel false, Call.UpdateState] := by
  refine ⟨?_, ?_, ?_⟩
  · apply Write_elim (motive := fun r => updatedAfterEachChange (issued m r) = true)
      P m addr value
    case w2 =>
      intro _
      apply issued_UpdateIrqState_ordered m _
        [Call.SetSignalValue ScsiSignal.Ack (decide ((value &&& 0x80) ≠ 0)), Call.UpdateState]
      · simp [scsiUpdateState_log, scsiSetSignalValue_log]
      · simp [updatedAfterEachChange, isBusChange]
    case w4a =>
      intro _ _
      apply issued_UpdateIrqState_ordered m _
        [Call.SetSignalValue ScsiSignal.Rst true, Call.UpdateState]
      · simp [scsiUpdateState_log, scsiSetSignalValue_log]
      · simp [updatedAfterEachChange, isBusChange]
    all_goals
      intros
      simp [issued, scsiUpdateState_log, scsiSetSignalValue_log, scsiSetDataPort_log,
        adpcmWrite_log, faderWrite_log, updatedAfterEachChange, isBusChange]
  · apply Read_elim (motive := fun r => updatedAfterEachChange (issued m r.2) = true) P m addr
    case c5 =>
      intro _
      rw [selectedSample_snd]
      cases m.state.ReadRightChannel <;>
        simp [issued, emit_log, updatedAfterEachChange, isBusChange]
    case c6 =>
      intro _
      rw [selectedSample_snd]
      cases m.state.ReadRightChannel <;>
        simp [issued, emit_log, updatedAfterEachChange, isBusChange]
    all_goals
      intros
      simp [issued, emit_log, scsiUpdateState_log, scsiSetAckWithAutoClear_log,
        adpcmRead_log, updatedAfterEachChange, isBusChange]
  · rw [Write_off00 P m 0x00 value (by decide)]
    simp [issued, scsiUpdateState_log, scsiSetSignalValue_log]

theorem streamU8_visited (s : Serializer) (name : String) (x : Nat) :
    (s.streamU8 name x).2.visited = s.visited ++ [name] := by
  unfold Serializer.streamU8
  split
  · rfl
  · split <;> rfl

theorem streamBool_visited (s : Serializer) (name : String) (x : Bool) :
    (s.streamBool name x).2.visited = s.visited ++ [name] := by
  unfold Serializer.streamBool
  split
  · rfl
  · split <;> rfl

theorem streamNested_visited (s : Serializer) (name : String) :
    (s.streamNested name).visited = s.visited ++ [name] := by
  unfold Serializer.streamNested
  split
  · rfl
  · split <;> rfl

/-- C17: Serialize visits ActiveIrqs, BramLocked, EnabledIrqs, ReadRightChannel and then
the delegates scsi, adpcm, audio player, audio fader, in this order, when saving and when
loading; saving any ControllerState and loading the block into any other controller
restores all four fields exactly. -/
theorem C17_serialize_round_trip (a b : ControllerState) (block : List SValue)
    (saving : Bool) :
    (Serialize { saving := saving, block := block, visited := [] } a).2.visited
        = ["_state.ActiveIrqs", "_state.BramLocked", "_state.EnabledIrqs",
            "_state.ReadRightChannel", "_scsi", "_adpcm", "_audioPlayer", "_audioFader"]
      ∧ loadBlock (saveBlock a) b = a
      ∧ (Serialize { saving := true, block := [], visited := [] } a).1 = a := by
  refine ⟨?_, ?_, ?_⟩
  · unfold Serialize
    simp only [streamNested_visited, streamBool_visited, streamU8_visited]
    rfl
  · cases a
    simp [loadBlock, saveBlock, Serialize, Serializer.streamU8, Serializer.streamBool,
      Serializer.streamNested]
  · cases a
    simp [Serialize, Serializer.streamU8, Serializer.streamBool, Serializer.streamNested]

theorem applyIrqCall_active (m : PceCdRom W) (c : IrqCall) :
    (applyIrqCall m c).state.ActiveIrqs = activeAfter m.state.ActiveIrqs c := by
  cases c with
  | SetIrqSource src =>
    simp only [applyIrqCall, activeAfter, SetIrqSource]
    split
    · rw [UpdateIrqState_state]
    · rfl
  | ClearIrqSource src =>
    simp only [applyIrqCall, activeAfter, ClearIrqSource]
    split
    · rw [UpdateIrqState_state]
    · rfl

theorem foldl_applyIrqCall_active (calls : List IrqCall) :
    ∀ m : PceCdRom W,
      (calls.foldl applyIrqCall m).state.ActiveIrqs
        = calls.foldl activeAfter m.state.ActiveIrqs := by
  induction calls with
  | nil => intro m; rfl
  | cons c rest ih =>
    intro m
    rw [List.foldl_cons, List.foldl_cons, ih, applyIrqCall_active]

theorem tracks_refl (m : PceCdRom W) : tracks m m :=
  ⟨[], by rw [List.append_nil], rfl⟩

theorem tracks_of_same {start n k : PceCdRom W} (hc : k.callbacks = n.callbacks)
    (ha : k.state.ActiveIrqs = n.state.ActiveIrqs) (h : tracks start n) : tracks start k := by
  obtain ⟨calls, h1, h2⟩ := h
  exact ⟨calls, hc.trans h1, ha.trans h2⟩

theorem tracks_reenter {start n : PceCdRom W} (calls : List IrqCall) (h : tracks start n) :
    tracks start (reenter n calls) := by
  obtain ⟨before, h1, h2⟩ := h
  refine ⟨before ++ calls, ?_, ?_⟩
  · show n.callbacks ++ calls = _
    rw [h1, List.append_assoc]
  · show (calls.foldl applyIrqCall { n with log := n.callbackLog }).state.ActiveIrqs = _
    rw [foldl_applyIrqCall_active, List.foldl_append]
    show calls.foldl activeAfter n.state.ActiveIrqs = _
    rw [h2]

theorem tracks_UpdateIrqState {start n : PceCdRom W} (h : tracks start n) :
    tracks start (UpdateIrqState n) :=
  tracks_of_same (UpdateIrqState_callbacks n) (by rw [UpdateIrqState_state]) h

/-- Every write leaves in ActiveIrqs what the calls back received during it leave. -/
theorem tracks_Write (P : Collaborators W) (m : PceCdRom W) (addr value : Nat) :
    tracks m (Write P m addr value) := by
  have h := tracks_refl m
  have hre : ∀ (n : PceCdRom W) (d : W) (l : List Call) (calls : List IrqCall),
      tracks m n → tracks m (reenter { n with dev := d, log := l } calls) :=
    fun n d l calls hn => tracks_reenter calls (tracks_of_same rfl rfl hn)
  apply Write_elim P m addr value
  case w0 =>
    intro _
    exact hre _ _ _ _ (hre _ _ _ _ (hre _ _ _ _ (hre _ _ _ _ h)))
  case w1 =>
    intro _
    exact hre _ _ _ _ (hre _ _ _ _ h)
  case w2 =>
    intro _
    exact tracks_UpdateIrqState (tracks_of_same rfl rfl (hre _ _ _ _ (hre _ _ _ _ h)))
  case w4a =>
    intro _ _
    exact tracks_UpdateIrqState (tracks_of_same rfl rfl (hre _ _ _ _ (hre _ _ _ _ h)))
  case w4b =>
    intro _ _
    exact hre _ _ _ _ (hre _ _ _ _ h)
  case w7a =>
    intro _ _
    exact tracks_of_same rfl rfl h
  case w8 =>
    intro _ _
    exact hre _ _ _ _ h
  case wF =>
    intro _
    exact hre _ _ _ _ h
  all_goals
    intros
    exact h

/-- Every read leaves in ActiveIrqs what the calls back received during it leave. -/
theorem tracks_Read (P : Collaborators W) (m : PceCdRom W) (addr : Nat) :
    tracks m (Read P m addr).2 := by
  have h := tracks_refl m
  have hre : ∀ (n : PceCdRom W) (d : W) (l : List Call) (calls : List IrqCall),
      tracks m n → tracks m (reenter { n with dev := d, log := l } calls) :=
    fun n d l calls hn => tracks_reenter calls (tracks_of_same rfl rfl hn)
  apply Read_elim (motive := fun r => tracks m r.2) P m addr
  case c5 =>
    intro _
    show tracks m (selectedSample P m).2
    rw [selectedSample_snd]
    exact tracks_of_same rfl rfl h
  case c6 =>
    intro _
    show tracks m (selectedSample P m).2
    rw [selectedSample_snd]
    exact tracks_of_same rfl rfl h
  case c8a =>
    intro _ _ _ _
    exact hre _ _ _ _ (hre _ _ _ _ (tracks_of_same rfl rfl h))
  case c9 =>
    intro _ _
    exact hre _ _ _ _ h
  all_goals
    intros
    exact tracks_of_same rfl rfl h

theorem active_of_tracks {m n : PceCdRom W} (h : tracks m n) :
    n.state.ActiveIrqs = ((received m n).foldl applyIrqCall m).state.ActiveIrqs
      ∧ (received m n = [] → n.state.ActiveIrqs = m.state.ActiveIrqs) := by
  obtain ⟨calls, h1, h2⟩ := h
  have hr : received m n = calls := by
    simp [received, h1]
  rw [hr, foldl_applyIrqCall_active]
  refine ⟨h2, ?_⟩
  intro he
  rw [h2, he]
  rfl

/-- C18 (as the claim states it, refuted): on a bus whose update, under reset, reports the
data-transfer conditions as gone, the write of 0x02 to offset 0x04 turns ActiveIrqs 0x64
into 0x04. -/
theorem C18_register_access_counterexample :
    (toyMachine 0x64 0x7C).state.ActiveIrqs = 0x64
      ∧ (Write toyReset (toyMachine 0x64 0x7C) 0x04 0x02).state.ActiveIrqs = 0x04 := by
  constructor <;> decide

/-- C18 (amended): Write and Read never assign ActiveIrqs themselves.  After every
access ActiveIrqs is what the SetIrqSource and ClearIrqSource calls the delegates made
back into the controller during that access leave of it, so it is unchanged whenever no
delegate called back, and for every access that reaches no delegate operation (writes at
offsets 0x03, 0x05 to 0x07 and above 0x0F, reads at offsets up to 0x07 and above 0x0E);
a read of offset 0x03 returns ActiveIrqs with at most bit 1 added. -/
theorem C18_active_irqs_change_only_by_calls_back (P : Collaborators W) (m : PceCdRom W)
    (addr value : Nat) :
    (Write P m addr value).state.ActiveIrqs
        = ((received m (Write P m addr value)).foldl applyIrqCall m).state.ActiveIrqs
      ∧ (Read P m addr).2.state.ActiveIrqs
        = ((received m (Read P m addr).2).foldl applyIrqCall m).state.ActiveIrqs
      ∧ (received m (Write P m addr value) = [] →
          (Write P m addr value).state.ActiveIrqs = m.state.ActiveIrqs)
      ∧ (received m (Read P m addr).2 = [] →
          (Read P m addr).2.state.ActiveIrqs = m.state.ActiveIrqs)
      ∧ (addr &&& 0x3FF = 0x03 ∨ (0x05 ≤ addr &&& 0x3FF ∧ addr &&& 0x3FF ≤ 0x07)
            ∨ 0x0F < addr &&& 0x3FF →
          (Write P m addr value).state.ActiveIrqs = m.state.ActiveIrqs
            ∧ received m (Write P m addr value) = [])
      ∧ (addr &&& 0x3FF ≤ 0x07 ∨ 0x0E < addr &&& 0x3FF →
          (Read P m addr).2.state.ActiveIrqs = m.state.ActiveIrqs
            ∧ received m (Read P m addr).2 = [])
      ∧ ((Read P m 0x03).1 = m.state.ActiveIrqs
          ∨ (Read P m 0x03).1 = m.state.ActiveIrqs ||| 0x02) := by
  have hw := active_of_tracks (tracks_Write P m addr value)
  have hr := active_of_tracks (tracks_Read P m addr)
  refine ⟨hw.1, hr.1, hw.2, hr.2, ?_, ?_, ?_⟩
  · intro hoff
    apply Write_elim (motive := fun r =>
      r.state.ActiveIrqs = m.state.ActiveIrqs ∧ received m r = []) P m addr value <;>
      intros <;> first | omega | simp [received]
  · intro hoff
    apply Read_elim (motive := fun r =>
      r.2.state.ActiveIrqs = m.state.ActiveIrqs ∧ received m r.2 = []) P m addr <;>
      intros <;>
      first
        | omega
        | (show (selectedSample P m).2.state.ActiveIrqs = m.state.ActiveIrqs
              ∧ received m (selectedSample P m).2 = []
           rw [selectedSample_snd]
           simp [received, emit])
        | simp [received, emit]
  · rw [Read_off03 P m 0x03 (by decide)]
    cases m.state.ReadRightChannel
    · left
      show m.state.ActiveIrqs ||| 0 = m.state.ActiveIrqs
      rw [Nat.or_zero]
    · right
      rfl

/-- C18 witness: a write to offset 0x07 reaches no delegate and keeps ActiveIrqs. -/
theorem C18_active_irqs_change_only_by_calls_back_witness :
    (Write toyReset (toyMachine 0x64 0x7C) 0x07 0x80).state.ActiveIrqs
        = (toyMachine 0x64 0x7C).state.ActiveIrqs
      ∧ received (toyMachine 0x64 0x7C) (Write toyReset (toyMachine 0x64 0x7C) 0x07 0x80) = [] :=
  (C18_active_irqs_change_only_by_calls_back toyReset (toyMachine 0x64 0x7C) 0x07
    0x80).2.2.2.2.1 (Or.inr (Or.inl (by decide)))

end PceCdRom

namespace SaveStateManager

/-- C19: for every selected slot `i` with `1 ≤ i ≤ MaxIndex`, MoveToNextSlot and
MoveToPreviousSlot keep the index in `1..MaxIndex`, wrap around (the next of MaxIndex is 1,
the previous of 1 is MaxIndex) and undo each other. -/
theorem C19_slot_cycling (MaxIndex i : Nat) (h1 : 1 ≤ i) (h2 : i ≤ MaxIndex) :
    (1 ≤ MoveToNextSlot MaxIndex i ∧ MoveToNextSlot MaxIndex i ≤ MaxIndex)
      ∧ (1 ≤ MoveToPreviousSlot MaxIndex i ∧ MoveToPreviousSlot MaxIndex i ≤ MaxIndex)
      ∧ MoveToNextSlot MaxIndex MaxIndex = 1
      ∧ MoveToPreviousSlot MaxIndex 1 = MaxIndex
      ∧ MoveToPreviousSlot MaxIndex (MoveToNextSlot MaxIndex i) = i
      ∧ MoveToNextSlot MaxIndex (MoveToPreviousSlot MaxIndex i) = i := by
  have hnext : MoveToNextSlot MaxIndex i = if i = MaxIndex then 1 else i + 1 := by
    unfold MoveToNextSlot
    by_cases h : i = MaxIndex
    · rw [if_pos h, h, Nat.mod_self]
    · rw [if_neg h, Nat.mod_eq_of_lt (by omega)]
  have hmax : MoveToNextSlot MaxIndex MaxIndex = 1 := by
    unfold MoveToNextSlot
    rw [Nat.mod_self]
  have hprev : MoveToPreviousSlot MaxIndex i = if i = 1 then MaxIndex else i - 1 := rfl
  refine ⟨?_, ?_, hmax, ?_, ?_, ?_⟩
  · rw [hnext]
    split <;> omega
  · rw [hprev]
    split <;> omega
  · unfold MoveToPreviousSlot
    rw [if_pos rfl]
  · rw [hnext]
    by_cases h : i = MaxIndex
    · rw [if_pos h]
      unfold MoveToPreviousSlot
      rw [if_pos rfl, h]
    · rw [if_neg h]
      unfold MoveToPreviousSlot
      rw [if_neg (by omega)]
      omega
  · rw [hprev]
    by_cases h : i = 1
    · rw [if_pos h, hmax, h]
    · rw [if_neg h]
      unfold MoveToNextSlot
      rw [Nat.mod_eq_of_lt (by omega)]
      omega

/-- C19 witness: with ten slots, slot 10 is followed by slot 1 and preceded by slot 9. -/
theorem C19_slot_cycling_witness :
    (1 ≤ MoveToNextSlot 10 10 ∧ MoveToNextSlot 10 10 ≤ 10)
      ∧ (1 ≤ MoveToPreviousSlot 10 10 ∧ MoveToPreviousSlot 10 10 ≤ 10)
      ∧ MoveToNextSlot 10 10 = 1
      ∧ MoveToPreviousSlot 10 1 = 10
      ∧ MoveToPreviousSlot 10 (MoveToNextSlot 10 10) = 10
      ∧ MoveToNextSlot 10 (MoveToPreviousSlot 10 10) = 10 :=
  C19_slot_cycling 10 10 (by decide) (by decide)

/-- Case analysis on `LoadState`, along its checks in order. -/
theorem LoadState_elim {motive : Option (Bool × List Effect) → Prop} (X : Externals)
    (emu : Emu) (stream : List Nat)
    (k0 : emu.connected = true →
      motive (some (false, [Effect.DisplayMessage "Netplay" "NetplayNotAllowed"])))
    (k1 : emu.connected = false → stream.length < 3 → motive none)
    (k2 : emu.connected = false → ¬ stream.length < 3 → stream.take 3 ≠ magic →
      motive (some (false, [Effect.DisplayMessage "SaveStates" "SaveStateInvalidFile"])))
    (k3 : emu.connected = false → stream.take 3 = magic → (stream.drop 3).length < 4 →
      motive none)
    (k4 : emu.connected = false → stream.take 3 = magic →
      le32 ((stream.drop 3).take 4) > emu.version →
      motive (some (false, [Effect.DisplayMessage "SaveStates" "SaveStateNewerVersion"])))
    (k5 : emu.connected = false → stream.take 3 = magic →
      ¬ le32 ((stream.drop 3).take 4) > emu.version →
      ((stream.drop 3).drop 4).length < 4 → motive none)
    (k6 : emu.connected = false → stream.take 3 = magic →
      ¬ le32 ((stream.drop 3).take 4) > emu.version →
      le32 (((stream.drop 3).drop 4).take 4) < X.MinimumSupportedVersion →
      motive (some (false,
        [Effect.DisplayMessage "SaveStates" "SaveStateIncompatibleVersion"])))
    (k7 : emu.connected = false → stream.take 3 = magic →
      ¬ le32 ((stream.drop 3).take 4) > emu.version →
      ¬ le32 (((stream.drop 3).drop 4).take 4) < X.MinimumSupportedVersion →
      ((((stream.drop 3).drop 4).drop 4).drop 40).length < 4 → motive none)
    (k8 : emu.connected = false → stream.take 3 = magic →
      ¬ le32 ((stream.drop 3).take 4) > emu.version →
      ¬ le32 (((stream.drop 3).drop 4).take 4) < X.MinimumSupportedVersion →
      le32 (((((stream.drop 3).drop 4).drop 4).drop 40).take 4) ≠ emu.consoleType →
      motive (some (false, [Effect.DisplayMessage "SaveStates" "SaveStateWrongSystem"])))
    (k9 : emu.connected = false → stream.take 3 = magic →
      ¬ le32 ((stream.drop 3).take 4) > emu.version →
      ¬ le32 (((stream.drop 3).drop 4).take 4) < X.MinimumSupportedVersion →
      le32 (((((stream.drop 3).drop 4).drop 4).drop 40).take 4) = emu.consoleType →
      emu.running = false →
      motive (some (false,
        match (GetScreenshotData X
          (((((stream.drop 3).drop 4).drop 4).drop 40).drop 4)).1 with
        | some (frame, width, height) => [Effect.UpdateFrame frame width height]
        | none => [])))
    (k10 : emu.connected = false → stream.take 3 = magic →
      ¬ le32 ((stream.drop 3).take 4) > emu.version →
      ¬ le32 (((stream.drop 3).drop 4).take 4) < X.MinimumSupportedVersion →
      le32 (((((stream.drop 3).drop 4).drop 4).drop 40).take 4) = emu.consoleType →
      emu.running = true →
      motive (some (true,
        (match (GetScreenshotData X
          (((((stream.drop 3).drop 4).drop 4).drop 40).drop 4)).1 with
        | some (frame, width, height) => [Effect.UpdateFrame frame width height]
        | none => []) ++
        [Effect.MovieStop,
          Effect.Deserialize
            (((GetScreenshotData X
              (((((stream.drop 3).drop 4).drop 4).drop 40).drop 4)).2.drop 4).drop
                (le32 ((GetScreenshotData X
                  (((((stream.drop 3).drop 4).drop 4).drop 40).drop 4)).2.take 4)))
            (le32 (((stream.drop 3).drop 4).take 4))]))) :
    motive (LoadState X emu stream) := by
  unfold LoadState
  dsimp only
  by_cases hc : emu.connected = true
  · rw [if_pos hc]; exact k0 hc
  rw [if_neg hc]
  have hc0 : emu.connected = false := by
    cases h : emu.connected
    · rfl
    · exact absurd h hc
  by_cases h3 : stream.length < 3
  · rw [if_pos h3]; exact k1 hc0 h3
  rw [if_neg h3]
  by_cases hm : stream.take 3 = magic
  swap
  · rw [if_neg hm]; exact k2 hc0 h3 hm
  rw [if_pos hm]
  by_cases h4 : (stream.drop 3).length < 4
  · rw [if_pos h4]; exact k3 hc0 hm h4
  rw [if_neg h4]
  by_cases hv : le32 ((stream.drop 3).take 4) > emu.version
  · rw [if_pos hv]; exact k4 hc0 hm hv
  rw [if_neg hv]
  by_cases h5 : ((stream.drop 3).drop 4).length < 4
  · rw [if_pos h5]; exact k5 hc0 hm hv h5
  rw [if_neg h5]
  by_cases hf : le32 (((stream.drop 3).drop 4).take 4) < X.MinimumSupportedVersion
  · rw [if_pos hf]; exact k6 hc0 hm hv hf
  rw [if_neg hf]
  by_cases h6 : ((((stream.drop 3).drop 4).drop 4).drop 40).length < 4
  · rw [if_pos h6]; exact k7 hc0 hm hv hf h6
  rw [if_neg h6]
  by_cases ht : le32 (((((stream.drop 3).drop 4).drop 4).drop 40).take 4) ≠ emu.consoleType
  · rw [if_pos ht]; exact k8 hc0 hm hv hf ht
  rw [if_neg ht]
  have ht0 : le32 (((((stream.drop 3).drop 4).drop 4).drop 40).take 4) = emu.consoleType := by
    by_contra hne
    exact ht hne
  cases hr : emu.running
  · simpa [hr] using k9 hc0 hm hv hf ht0 hr
  · simpa [hr] using k10 hc0 hm hv hf ht0 hr

theorem callsDeserialize_frame (shot : Option (List Nat × Nat × Nat)) :
    callsDeserialize
      (match shot with
        | some (frame, width, height) => [Effect.UpdateFrame frame width height]
        | none => []) = false := by
  cases shot with
  | none => rfl
  | some p => rfl

/-- C20: LoadState returns false without calling Emulator::Deserialize whenever a netplay
client is connected, the first three bytes are not "MSS", the stored emulator version is
greater than the running one, the stored format version is below
MinimumSupportedVersion, the stored console type differs from the running one, or no game
is running; it calls Deserialize and returns true exactly when none of these holds.  It
returns for every stream that holds the 55 header bytes, and whenever a client is
connected. -/
theorem C20_load_state_header_validation (X : Externals) (emu : Emu) (stream : List Nat) :
    (emu.connected = true ∨ 55 ≤ stream.length → (LoadState X emu stream).isSome = true)
      ∧ (∀ r effects, LoadState X emu stream = some (r, effects) →
          r = accepted X emu stream ∧ callsDeserialize effects = r) := by
  apply LoadState_elim (motive := fun res =>
    (emu.connected = true ∨ 55 ≤ stream.length → res.isSome = true)
      ∧ (∀ r effects, res = some (r, effects) →
          r = accepted X emu stream ∧ callsDeserialize effects = r)) X emu stream
  case k0 =>
    intro hc
    refine ⟨fun _ => rfl, ?_⟩
    intro r effects h
    simp only [Option.some.injEq, Prod.mk.injEq] at h
    obtain ⟨rfl, rfl⟩ := h
    simp [accepted, hc, callsDeserialize]
  case k1 =>
    intro hc h3
    refine ⟨?_, fun r effects h => Option.noConfusion h⟩
    intro h
    rcases h with h | h
    · rw [hc] at h; exact Bool.noConfusion h
    · omega
  case k2 =>
    intro hc _ hm
    refine ⟨fun _ => rfl, ?_⟩
    intro r effects h
    simp only [Option.some.injEq, Prod.mk.injEq] at h
    obtain ⟨rfl, rfl⟩ := h
    simp [accepted, headerFields, hm, callsDeserialize]
  case k3 =>
    intro hc _ h4
    refine ⟨?_, fun r effects h => Option.noConfusion h⟩
    intro h
    rcases h with h | h
    · rw [hc] at h; exact Bool.noConfusion h
    · rw [List.length_drop] at h4; omega
  case k4 =>
    intro hc hm hv
    refine ⟨fun _ => rfl, ?_⟩
    intro r effects h
    simp only [Option.some.injEq, Prod.mk.injEq] at h
    obtain ⟨rfl, rfl⟩ := h
    have hv2 : ¬ le32 ((stream.drop 3).take 4) ≤ emu.version := by omega
    simp [accepted, headerFields, hv2, callsDeserialize]
  case k5 =>
    intro hc _ _ h5
    refine ⟨?_, fun r effects h => Option.noConfusion h⟩
    intro h
    rcases h with h | h
    · rw [hc] at h; exact Bool.noConfusion h
    · simp only [List.length_drop] at h5; omega
  case k6 =>
    intro hc hm hv hf
    refine ⟨fun _ => rfl, ?_⟩
    intro r effects h
    simp only [Option.some.injEq, Prod.mk.injEq] at h
    obtain ⟨rfl, rfl⟩ := h
    rw [List.drop_drop] at hf
    have hf2 : ¬ X.MinimumSupportedVersion ≤ le32 ((stream.drop 7).take 4) := by
      simpa using hf
    simp [accepted, headerFields, hf2, callsDeserialize]
  case k7 =>
    intro hc _ _ _ h6
    refine ⟨?_, fun r effects h => Option.noConfusion h⟩
    intro h
    rcases h with h | h
    · rw [hc] at h; exact Bool.noConfusion h
    · simp only [List.length_drop] at h6; omega
  case k8 =>
    intro hc hm hv hf ht
    refine ⟨fun _ => rfl, ?_⟩
    intro r effects h
    simp only [Option.some.injEq, Prod.mk.injEq] at h
    obtain ⟨rfl, rfl⟩ := h
    simp only [List.drop_drop] at ht
    have ht2 : ¬ le32 ((stream.drop 51).take 4) = emu.consoleType := by
      simpa using ht
    simp [accepted, headerFields, ht2, callsDeserialize]
  case k9 =>
    intro hc hm hv hf ht hr
    refine ⟨fun _ => rfl, ?_⟩
    intro r effects h
    simp only [Option.some.injEq, Prod.mk.injEq] at h
    obtain ⟨rfl, rfl⟩ := h
    refine ⟨?_, callsDeserialize_frame _⟩
    simp [accepted, hr]
  case k10 =>
    intro hc hm hv hf ht hr
    refine ⟨fun _ => rfl, ?_⟩
    intro r effects h
    simp only [Option.some.injEq, Prod.mk.injEq] at h
    obtain ⟨rfl, rfl⟩ := h
    simp only [List.drop_drop] at ht hf
    have hv2 : le32 ((stream.drop 3).take 4) ≤ emu.version := by omega
    have hf2 : X.MinimumSupportedVersion ≤ le32 ((stream.drop 7).take 4) := by
      simpa using hf
    have ht2 : le32 ((stream.drop 51).take 4) = emu.consoleType := by
      simpa using ht
    constructor
    · simp [accepted, headerFields, hc, hm, hv2, hf2, ht2, hr]
    · simp [callsDeserialize]

/-- C20 witness: the example save state is accepted by the example emulator: LoadState
returns true after stopping the movie and handing the two state bytes to Deserialize. -/
theorem C20_load_state_header_validation_witness :
    (LoadState exampleExternals exampleEmu exampleStream).isSome = true
      ∧ true = accepted exampleExternals exampleEmu exampleStream
      ∧ callsDeserialize [Effect.MovieStop, Effect.Deserialize [9, 9] 4] = true :=
  ⟨(C20_load_state_header_validation exampleExternals exampleEmu exampleStream).1
      (Or.inr (by decide)),
    (C20_load_state_header_validation exampleExternals exampleEmu exampleStream).2 true
      [Effect.MovieStop, Effect.Deserialize [9, 9] 4] (by decide)⟩

end SaveStateManager
